import Mathlib

/-!
Shallow embedding of the makertalk access-controlled messaging core
(the `convex/` handlers: `messages.ts`, `workspaces.ts`, `directMessages.ts`,
`lib/rateLimit.ts`), together with proofs about the embedded operations.

Conventions of the embedding:
* document ids are `Nat`; a single `nextId` counter plays the role of the
  store's id allocator (`ctx.db.insert` returns the fresh id);
* `Date.now()` is an explicit `now : Nat` argument of each handler;
* the ambient authenticated identity (`getAuthUserId`) is an explicit
  `auth : Option Nat` argument (`none` = unauthenticated);
* fallible handlers return `Except String α`, the `String` being the
  exact `new Error(...)` message thrown by the source;
* Convex `.unique()` (at most one matching row, error otherwise) is the
  `uniqueMatch` helper below;
* external collaborators (blob storage `getUrl`, `crypto.randomUUID`) are
  explicit function/value arguments, per the spec's external-interface list.
-/

namespace MakerTalk

/-- Roles of a workspace member (`schema.ts`: `workspaceMembers.role`). -/
inductive Role where
  | owner
  | admin
  | member
deriving Repr, DecidableEq, BEq

/-- The role validator of `updateMemberRole` only admits `admin | member`
(`workspaces.ts`: `v.union(v.literal("admin"), v.literal("member"))`). -/
inductive NewRole where
  | admin
  | member
deriving Repr, DecidableEq, BEq

def NewRole.toRole : NewRole → Role
  | .admin => .admin
  | .member => .member

/-- A row of the `users` auth table (only the fields the handlers project). -/
structure User where
  id : Nat
  name : Option String
  email : Option String
  image : Option String
deriving Repr, DecidableEq

/-- A row of the `workspaces` table. -/
structure Workspace where
  id : Nat
  name : String
  description : Option String
  ownerId : Nat
  createdAt : Nat
deriving Repr, DecidableEq

/-- A row of the `workspaceMembers` table. -/
structure WorkspaceMember where
  id : Nat
  workspaceId : Nat
  userId : Nat
  role : Role
  joinedAt : Nat
deriving Repr, DecidableEq

/-- A row of the `channels` table. -/
structure Channel where
  id : Nat
  workspaceId : Nat
  name : String
  description : Option String
  isPrivate : Bool
  createdBy : Nat
  createdAt : Nat
deriving Repr, DecidableEq

/-- A row of the `channelMembers` table. -/
structure ChannelMember where
  id : Nat
  channelId : Nat
  userId : Nat
  joinedAt : Nat
deriving Repr, DecidableEq

/-- A row of the `directMessages` table. -/
structure DirectMessage where
  id : Nat
  workspaceId : Nat
  participants : List Nat
  createdAt : Nat
deriving Repr, DecidableEq

/-- An attachment as supplied by the client to `messages.send`. -/
structure AttachmentIn where
  storageId : Nat
  filename : String
  mimeType : String
  size : Nat
deriving Repr, DecidableEq

/-- An attachment as stored on a message (send snapshots the resolved URL). -/
structure Attachment where
  storageId : Nat
  filename : String
  mimeType : String
  size : Nat
  url : Option String
deriving Repr, DecidableEq

/-- A link preview object (already resolved by the client-side fetcher). -/
structure LinkPreview where
  url : String
  title : Option String
  description : Option String
  image : Option String
  siteName : Option String
deriving Repr, DecidableEq

/-- A row of the `messages` table. -/
structure Message where
  id : Nat
  workspaceId : Nat
  channelId : Option Nat
  dmId : Option Nat
  senderId : Nat
  text : String
  attachments : List Attachment
  linkPreviews : Option (List LinkPreview)
  parentMessageId : Option Nat
  editedAt : Option Nat
  deletedAt : Option Nat
  createdAt : Nat
deriving Repr, DecidableEq

/-- A row of the `invites` table. -/
structure Invite where
  id : Nat
  workspaceId : Nat
  email : String
  token : String
  invitedBy : Nat
  expiresAt : Nat
  usedAt : Option Nat
  createdAt : Nat
deriving Repr, DecidableEq

/-- A row of the `reactions` table. -/
structure ReactionRow where
  id : Nat
  messageId : Nat
  userId : Nat
  emoji : String
  createdAt : Nat
deriving Repr, DecidableEq

/-- Modelled from the spec: per-(action, key) fixed-window counter state of
the external `@convex-dev/rate-limiter` component used by `lib/rateLimit.ts`
(the component itself is not part of the repository). -/
structure RLEntry where
  name : String
  key : Nat
  windowStart : Nat
  used : Nat
deriving Repr, DecidableEq

/-- The per-action configuration table of `lib/rateLimit.ts` (rate, period ms). -/
def rlConfig : String → Option (Nat × Nat)
  | "sendMessage" => some (30, 60000)
  | "uploadFile" => some (10, 60000)
  | "createWorkspace" => some (5, 3600000)
  | "createChannel" => some (10, 3600000)
  | "createDm" => some (20, 3600000)
  | "addReaction" => some (50, 60000)
  | "createInvite" => some (10, 3600000)
  | _ => none

/-- Modelled from the spec: `limit(actionName, key) -> success | throws
RateLimited`, fixed window — at most `rate` consumptions per `period`
window; a call past the window start resets the window. -/
def rlLimit (name : String) (key : Nat) (now : Nat) (rl : List RLEntry) :
    Except String (List RLEntry) :=
  match rlConfig name with
  | none => .error "Unknown rate limit"
  | some (rate, period) =>
    match rl.find? (fun e => e.name == name && e.key == key) with
    | none => .ok ({ name := name, key := key, windowStart := now, used := 1 } :: rl)
    | some e =>
      if e.windowStart + period ≤ now then
        .ok (rl.map (fun x => if x.name == name && x.key == key then
          { x with windowStart := now, used := 1 } else x))
      else if e.used < rate then
        .ok (rl.map (fun x => if x.name == name && x.key == key then
          { x with used := x.used + 1 } else x))
      else
        .error "RateLimited"

/-- The whole database: one list per table, in insertion order, plus the
id allocator and the rate-limiter component state. -/
structure DB where
  users : List User
  workspaces : List Workspace
  workspaceMembers : List WorkspaceMember
  channels : List Channel
  channelMembers : List ChannelMember
  directMessages : List DirectMessage
  messages : List Message
  invites : List Invite
  reactions : List ReactionRow
  rl : List RLEntry
  nextId : Nat
deriving Repr, DecidableEq

/-- Convex `.unique()`: zero or one matching row, an error on two or more. -/
def uniqueMatch (p : α → Bool) (l : List α) : Except String (Option α) :=
  match l.filter p with
  | [] => .ok none
  | [x] => .ok (some x)
  | _ :: _ :: _ => .error "unique() query returned more than one result"

/-- `ctx.db.get` on the `messages` table. -/
def findMessage (db : DB) (mid : Nat) : Option Message :=
  db.messages.find? (fun m => m.id == mid)

/-- `ctx.db.get` on the `channels` table. -/
def findChannel (db : DB) (cid : Nat) : Option Channel :=
  db.channels.find? (fun c => c.id == cid)

/-- `ctx.db.get` on the `directMessages` table. -/
def findDm (db : DB) (did : Nat) : Option DirectMessage :=
  db.directMessages.find? (fun d => d.id == did)

/-- `ctx.db.get` on the `users` table. -/
def findUser (db : DB) (uid : Nat) : Option User :=
  db.users.find? (fun u => u.id == uid)

/-- The `by_workspace_user` membership lookup used by every handler:
`query("workspaceMembers").withIndex("by_workspace_user", ...).unique()`. -/
def memberLookup (db : DB) (w u : Nat) : Except String (Option WorkspaceMember) :=
  uniqueMatch (fun m => m.workspaceId == w && m.userId == u) db.workspaceMembers

/-- The `by_channel_user` channel membership lookup. -/
def channelMemberLookup (db : DB) (c u : Nat) : Except String (Option ChannelMember) :=
  uniqueMatch (fun m => m.channelId == c && m.userId == u) db.channelMembers

instance : LawfulBEq Role where
  eq_of_beq := by intro a b h; cases a <;> cases b <;> first | rfl | exact absurd h (by decide)
  rfl := by intro a; cases a <;> rfl

instance : LawfulBEq NewRole where
  eq_of_beq := by intro a b h; cases a <;> cases b <;> first | rfl | exact absurd h (by decide)
  rfl := by intro a; cases a <;> rfl

/-! ## `messages.ts` -/

/-- Client arguments of `messages.send`. -/
structure SendArgs where
  workspaceId : Nat
  channelId : Option Nat
  dmId : Option Nat
  text : String
  attachments : Option (List AttachmentIn)
  linkPreviews : Option (List LinkPreview)
  parentMessageId : Option Nat
deriving Repr, DecidableEq

/-- The channel/DM target-validation block of `messages.send`
(`if (args.channelId) {...} else if (args.dmId) {...} else throw`). -/
def sendTargetCheck (db : DB) (userId : Nat) (args : SendArgs) : Except String Unit :=
  match args.channelId with
  | some cid =>
    match findChannel db cid with
    | none => .error "Invalid channel"
    | some channel =>
      if channel.workspaceId ≠ args.workspaceId then .error "Invalid channel"
      else if channel.isPrivate then
        match channelMemberLookup db cid userId with
        | .error e => .error e
        | .ok none => .error "Not a member of this private channel"
        | .ok (some _) => .ok ()
      else .ok ()
  | none =>
    match args.dmId with
    | some did =>
      match findDm db did with
      | none => .error "Invalid direct message"
      | some dm =>
        if dm.workspaceId ≠ args.workspaceId ∨ userId ∉ dm.participants then
          .error "Invalid direct message"
        else .ok ()
    | none => .error "Must specify either channelId or dmId"

/-- `messages.send`.  `getUrl` is the external blob storage's
`ctx.storage.getUrl`; returns the new message id. -/
def send (auth : Option Nat) (now : Nat) (getUrl : Nat → Option String)
    (args : SendArgs) (db : DB) : Except String (DB × Nat) :=
  match auth with
  | none => .error "Not authenticated"
  | some userId =>
    match rlLimit "sendMessage" userId now db.rl with
    | .error e => .error e
    | .ok rl1 =>
      match memberLookup db args.workspaceId userId with
      | .error e => .error e
      | .ok none => .error "Not a member of this workspace"
      | .ok (some _) =>
        match sendTargetCheck db userId args with
        | .error e => .error e
        | .ok _ =>
          let processedAttachments : List Attachment :=
            (args.attachments.getD []).map (fun a =>
              { storageId := a.storageId, filename := a.filename,
                mimeType := a.mimeType, size := a.size,
                url := getUrl a.storageId })
          let msg : Message :=
            { id := db.nextId, workspaceId := args.workspaceId,
              channelId := args.channelId, dmId := args.dmId,
              senderId := userId, text := args.text,
              attachments := processedAttachments,
              linkPreviews := args.linkPreviews,
              parentMessageId := args.parentMessageId,
              editedAt := none, deletedAt := none, createdAt := now }
          .ok ({ db with
                  rl := rl1,
                  messages := db.messages ++ [msg],
                  nextId := db.nextId + 1 }, db.nextId)

/-- `messages.get` (query; degrades to `none`, including for non-members). -/
def msgGet (auth : Option Nat) (mid : Nat) (db : DB) : Except String (Option Message) :=
  match auth with
  | none => .ok none
  | some userId =>
    match findMessage db mid with
    | none => .ok none
    | some message =>
      if message.deletedAt.isSome then .ok none
      else
        match memberLookup db message.workspaceId userId with
        | .error e => .error e
        | .ok none => .ok none
        | .ok (some _) => .ok (some message)

/-- The sender projection joined into list results. -/
structure SenderInfo where
  id : Nat
  name : Option String
  email : Option String
  image : Option String
deriving Repr, DecidableEq

/-- One `{emoji, userIds, count}` aggregate of `messages.list`. -/
structure ReactionGroup where
  emoji : String
  userIds : List Nat
  count : Nat
deriving Repr, DecidableEq

/-- One element of a `messages.list` page (`{...message, sender, reactions}`). -/
structure ListedMessage where
  msg : Message
  sender : Option SenderInfo
  reactions : List ReactionGroup
deriving Repr, DecidableEq

/-- One element of a `getThreadMessages` page (`{...message, sender}`). -/
structure ThreadMessage where
  msg : Message
  sender : Option SenderInfo
deriving Repr, DecidableEq

/-- Target arguments of `messages.list`. -/
structure ListArgs where
  channelId : Option Nat
  dmId : Option Nat
deriving Repr, DecidableEq

/-- Pagination options; the opaque Convex cursor is modelled as a start
offset into the ordered result sequence. -/
structure PageOpts where
  cursor : Nat
  numItems : Nat
deriving Repr, DecidableEq

/-- A paginated result (`{page, isDone, continueCursor}`). -/
structure PageRes (α : Type) where
  page : List α
  isDone : Bool
  continueCursor : Option Nat
deriving Repr, DecidableEq

/-- The empty page returned by the read paths on missing authorization. -/
def emptyPage : PageRes α := { page := [], isDone := true, continueCursor := none }

/-- `.paginate(opts)` over an ordered result sequence. -/
def paginate (l : List α) (popts : PageOpts) : PageRes α :=
  { page := (l.drop popts.cursor).take popts.numItems,
    isDone := decide (l.length ≤ popts.cursor + popts.numItems),
    continueCursor := some (popts.cursor + popts.numItems) }

/-- Map a projection over a page. -/
def pageMap (f : α → β) (p : PageRes α) : PageRes β :=
  { page := p.page.map f, isDone := p.isDone, continueCursor := p.continueCursor }

/-- The ordered sequence paginated by `messages.list` for a channel:
`by_channel` index, filter non-deleted and top-level, `.order("desc")`
(the table list is in insertion = creation order, so `desc` reverses it). -/
def channelTimeline (db : DB) (cid : Nat) : List Message :=
  (db.messages.filter (fun m =>
    m.channelId == some cid && m.deletedAt.isNone && m.parentMessageId.isNone)).reverse

/-- The ordered sequence paginated by `messages.list` for a DM. -/
def dmTimeline (db : DB) (did : Nat) : List Message :=
  (db.messages.filter (fun m =>
    m.dmId == some did && m.deletedAt.isNone && m.parentMessageId.isNone)).reverse

/-- The ordered sequence of `getThreadMessages`/`getThreadCount`:
`by_parent` index, filter non-deleted, ascending (insertion) order. -/
def threadReplies (db : DB) (pid : Nat) : List Message :=
  db.messages.filter (fun m => m.parentMessageId == some pid && m.deletedAt.isNone)

/-- One step of the emoji-grouping `Map` of `messages.list` (JS `Map`
preserves first-insertion key order). -/
def insertReaction (acc : List (String × List Nat)) (emoji : String) (uid : Nat) :
    List (String × List Nat) :=
  if acc.any (fun p => p.1 == emoji) then
    acc.map (fun p => if p.1 == emoji then (p.1, p.2 ++ [uid]) else p)
  else acc ++ [(emoji, [uid])]

/-- The read-time reaction aggregation of `messages.list`. -/
def reactionGroups (rows : List ReactionRow) : List ReactionGroup :=
  (rows.foldl (fun acc r => insertReaction acc r.emoji r.userId) []).map
    (fun p => { emoji := p.1, userIds := p.2, count := p.2.length })

/-- The sender join (`ctx.db.get(message.senderId)` projected). -/
def senderInfo (db : DB) (uid : Nat) : Option SenderInfo :=
  (findUser db uid).map (fun u =>
    { id := u.id, name := u.name, email := u.email, image := u.image })

/-- The per-message enrichment of a `messages.list` page. -/
def enrichListed (db : DB) (m : Message) : ListedMessage :=
  { msg := m, sender := senderInfo db m.senderId,
    reactions := reactionGroups (db.reactions.filter (fun r => r.messageId == m.id)) }

/-- The per-message enrichment of a `getThreadMessages` page. -/
def enrichThread (db : DB) (m : Message) : ThreadMessage :=
  { msg := m, sender := senderInfo db m.senderId }

/-- `messages.list` (query; degrades to an empty page on missing access). -/
def listMessages (auth : Option Nat) (args : ListArgs) (popts : PageOpts) (db : DB) :
    Except String (PageRes ListedMessage) :=
  match auth with
  | none => .ok emptyPage
  | some userId =>
    match args.channelId with
    | some cid =>
      match findChannel db cid with
      | none => .ok emptyPage
      | some channel =>
        match memberLookup db channel.workspaceId userId with
        | .error e => .error e
        | .ok none => .ok emptyPage
        | .ok (some _) =>
          if channel.isPrivate then
            match channelMemberLookup db cid userId with
            | .error e => .error e
            | .ok none => .ok emptyPage
            | .ok (some _) =>
              .ok (pageMap (enrichListed db) (paginate (channelTimeline db cid) popts))
          else
            .ok (pageMap (enrichListed db) (paginate (channelTimeline db cid) popts))
    | none =>
      match args.dmId with
      | some did =>
        match findDm db did with
        | none => .ok emptyPage
        | some dm =>
          if userId ∈ dm.participants then
            .ok (pageMap (enrichListed db) (paginate (dmTimeline db did) popts))
          else .ok emptyPage
      | none => .ok emptyPage

/-- `messages.getThreadCount` (no identity or membership check in the source). -/
def getThreadCount (db : DB) (pid : Nat) : Nat :=
  (threadReplies db pid).length

/-- `messages.getThreadMessages` (query; empty page on missing access). -/
def getThreadMessages (auth : Option Nat) (pid : Nat) (popts : PageOpts) (db : DB) :
    Except String (PageRes ThreadMessage) :=
  match auth with
  | none => .ok emptyPage
  | some userId =>
    match findMessage db pid with
    | none => .ok emptyPage
    | some parentMessage =>
      match memberLookup db parentMessage.workspaceId userId with
      | .error e => .error e
      | .ok none => .ok emptyPage
      | .ok (some _) =>
        .ok (pageMap (enrichThread db) (paginate (threadReplies db pid) popts))

/-- Arguments of `messages.edit`. -/
structure EditArgs where
  messageId : Nat
  text : String
deriving Repr, DecidableEq

/-- The `ctx.db.patch` performed by `messages.edit`. -/
def editPatch (db : DB) (mid : Nat) (text : String) (now : Nat) : DB :=
  { db with messages := db.messages.map (fun m =>
    if m.id == mid then { m with text := text, editedAt := some now } else m) }

/-- `messages.edit`: sender-only check, sets `text` and `editedAt`. -/
def editMessage (auth : Option Nat) (now : Nat) (args : EditArgs) (db : DB) :
    Except String DB :=
  match auth with
  | none => .error "Not authenticated"
  | some userId =>
    match findMessage db args.messageId with
    | none => .error "Cannot edit this message"
    | some message =>
      if message.senderId ≠ userId then .error "Cannot edit this message"
      else .ok (editPatch db args.messageId args.text now)

/-- The soft-delete `ctx.db.patch` performed by `messages.remove`. -/
def removePatch (db : DB) (mid now : Nat) : DB :=
  { db with messages := db.messages.map (fun m =>
    if m.id == mid then { m with deletedAt := some now } else m) }

/-- `messages.remove`: sender or workspace owner/admin; soft delete
(patches `deletedAt`). -/
def removeMessage (auth : Option Nat) (now : Nat) (mid : Nat) (db : DB) :
    Except String DB :=
  match auth with
  | none => .error "Not authenticated"
  | some userId =>
    match findMessage db mid with
    | none => .error "Message not found"
    | some message =>
      match memberLookup db message.workspaceId userId with
      | .error e => .error e
      | .ok wm =>
        let isOwnerOrAdmin :=
          wm.any (fun m => m.role == Role.owner || m.role == Role.admin)
        let isSender := message.senderId == userId
        if !isSender && !isOwnerOrAdmin then .error "Cannot delete this message"
        else .ok (removePatch db mid now)

/-- Arguments of `messages.addReaction`. -/
structure ReactionArgs where
  messageId : Nat
  emoji : String
deriving Repr, DecidableEq

/-- `messages.addReaction`: toggle — delete the `(message, user, emoji)` row
if present, insert it otherwise.  Authentication and the rate limit are the
only gates (no workspace membership check in the source). -/
def addReaction (auth : Option Nat) (now : Nat) (args : ReactionArgs) (db : DB) :
    Except String DB :=
  match auth with
  | none => .error "Not authenticated"
  | some userId =>
    match rlLimit "addReaction" userId now db.rl with
    | .error e => .error e
    | .ok rl1 =>
      match uniqueMatch (fun r => r.emoji == args.emoji)
          (db.reactions.filter (fun r =>
            r.messageId == args.messageId && r.userId == userId)) with
      | .error e => .error e
      | .ok (some existingReaction) =>
        .ok { db with
                rl := rl1,
                reactions := db.reactions.filter
                  (fun r => r.id != existingReaction.id) }
      | .ok none =>
        .ok { db with
                rl := rl1,
                reactions := db.reactions ++
                  [{ id := db.nextId, messageId := args.messageId,
                     userId := userId, emoji := args.emoji, createdAt := now }],
                nextId := db.nextId + 1 }

/-- Observable: is the `(messageId, userId, emoji)` triple currently
reacted (a row exists)? -/
def hasReaction (db : DB) (m u2 : Nat) (e : String) : Bool :=
  db.reactions.any (fun r => r.messageId == m && r.userId == u2 && r.emoji == e)

/-- Observable: the aggregate count for emoji `e` on message `m` (the
`count` of the read-time `reactionGroups` aggregation is the number of
reaction rows for that message and emoji). -/
def reactionCount (db : DB) (m : Nat) (e : String) : Nat :=
  (db.reactions.filter (fun r => r.messageId == m && r.emoji == e)).length

/-! ## `workspaces.ts` -/

/-- `workspaces.get` (query; note: it THROWS for non-members). -/
def wsGet (auth : Option Nat) (w : Nat) (db : DB) :
    Except String (Option (Workspace × Role)) :=
  match auth with
  | none => .error "Not authenticated"
  | some userId =>
    match memberLookup db w userId with
    | .error e => .error e
    | .ok none => .error "Not a member of this workspace"
    | .ok (some membership) =>
      match db.workspaces.find? (fun x => x.id == w) with
      | none => .ok none
      | some workspace => .ok (some (workspace, membership.role))

/-- Arguments of `workspaces.generateInvite`. -/
structure InviteArgs where
  workspaceId : Nat
  email : String
deriving Repr, DecidableEq

/-- `workspaces.generateInvite`.  `token` is the external
`crypto.randomUUID()` value.  No rate-limiter call in the source. -/
def generateInvite (auth : Option Nat) (now : Nat) (token : String)
    (args : InviteArgs) (db : DB) : Except String (DB × String) :=
  match auth with
  | none => .error "Not authenticated"
  | some userId =>
    match memberLookup db args.workspaceId userId with
    | .error e => .error e
    | .ok none => .error "Insufficient permissions"
    | .ok (some membership) =>
      if membership.role = Role.member then .error "Insufficient permissions"
      else
        .ok ({ db with
                invites := db.invites ++
                  [{ id := db.nextId, workspaceId := args.workspaceId,
                     email := args.email, token := token, invitedBy := userId,
                     expiresAt := now + 7 * 24 * 60 * 60 * 1000,
                     usedAt := none, createdAt := now }],
                nextId := db.nextId + 1 }, token)

/-- The atomic write of a successful `workspaces.joinByInvite`: insert the
WorkspaceMember row with role `member` and mark the invite `usedAt`. -/
def joinApply (db : DB) (invite : Invite) (userId now : Nat) : DB :=
  { db with
      workspaceMembers := db.workspaceMembers ++
        [{ id := db.nextId, workspaceId := invite.workspaceId,
           userId := userId, role := .member, joinedAt := now }],
      invites := db.invites.map (fun i =>
        if i.id == invite.id then { i with usedAt := some now } else i),
      nextId := db.nextId + 1 }

/-- `workspaces.joinByInvite`: validity check, already-member check, then
member insert plus `usedAt` mark in the same mutation. -/
def joinByInvite (auth : Option Nat) (now : Nat) (token : String) (db : DB) :
    Except String (DB × Nat) :=
  match auth with
  | none => .error "Not authenticated"
  | some userId =>
    match uniqueMatch (fun i => i.token == token) db.invites with
    | .error e => .error e
    | .ok none => .error "Invalid or expired invite"
    | .ok (some invite) =>
      if invite.usedAt.isSome ∨ invite.expiresAt < now then
        .error "Invalid or expired invite"
      else
        match memberLookup db invite.workspaceId userId with
        | .error e => .error e
        | .ok (some _) => .error "Already a member of this workspace"
        | .ok none =>
          .ok (joinApply db invite userId now, invite.workspaceId)

/-- Arguments of `workspaces.updateMemberRole` (the validator only admits
`admin`/`member` as the new role). -/
structure RoleArgs where
  workspaceId : Nat
  userId : Nat
  newRole : NewRole
deriving Repr, DecidableEq

/-- The `ctx.db.patch` performed by `workspaces.updateMemberRole`. -/
def rolePatch (db : DB) (targetRowId : Nat) (newRole : NewRole) : DB :=
  { db with workspaceMembers := db.workspaceMembers.map (fun m =>
    if m.id == targetRowId then { m with role := newRole.toRole } else m) }

/-- `workspaces.updateMemberRole`. -/
def updateMemberRole (auth : Option Nat) (args : RoleArgs) (db : DB) :
    Except String DB :=
  match auth with
  | none => .error "Not authenticated"
  | some currentUserId =>
    match memberLookup db args.workspaceId currentUserId with
    | .error e => .error e
    | .ok cur =>
      if ¬ (cur.any (fun m => m.role == Role.owner || m.role == Role.admin) = true) then
        .error "Only workspace owners and admins can change member roles"
      else
        match memberLookup db args.workspaceId args.userId with
        | .error e => .error e
        | .ok none => .error "User is not a member of this workspace"
        | .ok (some targetMembership) =>
          if targetMembership.role = Role.owner then
            .error "Cannot change owner role. Transfer ownership first."
          else if args.newRole = NewRole.admin ∧
              ¬ (cur.any (fun m => m.role == Role.owner) = true) then
            .error "Only workspace owners can promote members to admin"
          else
            .ok (rolePatch db targetMembership.id args.newRole)

/-! ## `directMessages.ts` -/

/-- Helper for `dedupFirst`: walk the list keeping elements not yet seen
(the JS `Set` keeps the first occurrence of each element, in order). -/
def dedupFirstAux (seen : List Nat) : List Nat → List Nat
  | [] => []
  | x :: xs =>
    if x ∈ seen then dedupFirstAux seen xs
    else x :: dedupFirstAux (x :: seen) xs

/-- `[...new Set(l)]`: deduplication keeping the first occurrence of each
element, in order. -/
def dedupFirst (l : List Nat) : List Nat := dedupFirstAux [] l

/-- The participant-set match of `directMessages.create`
(`dm.participants.length === participants.length &&
participants.every(p => dm.participants.includes(p))`). -/
def matchDm (ps : List Nat) (dm : DirectMessage) : Bool :=
  dm.participants.length == ps.length && ps.all (fun p => dm.participants.contains p)

/-- Arguments of `directMessages.create`. -/
structure DmCreateArgs where
  workspaceId : Nat
  participants : List Nat
deriving Repr, DecidableEq

/-- `directMessages.create`: rate-limited, membership-gated; normalizes the
participant set and returns an existing DM with the same set if one is
found by the linear scan, inserting otherwise. -/
def dmCreate (auth : Option Nat) (now : Nat) (args : DmCreateArgs) (db : DB) :
    Except String (DB × Nat) :=
  match auth with
  | none => .error "Not authenticated"
  | some userId =>
    match rlLimit "createDm" userId now db.rl with
    | .error e => .error e
    | .ok rl1 =>
      match memberLookup db args.workspaceId userId with
      | .error e => .error e
      | .ok none => .error "Not a member of this workspace"
      | .ok (some _) =>
        let participants := dedupFirst (userId :: args.participants)
        let existingDMs := db.directMessages.filter
          (fun d => d.workspaceId == args.workspaceId)
        match existingDMs.find? (matchDm participants) with
        | some existingDM => .ok ({ db with rl := rl1 }, existingDM.id)
        | none =>
          .ok ({ db with
                  rl := rl1,
                  directMessages := db.directMessages ++
                    [{ id := db.nextId, workspaceId := args.workspaceId,
                       participants := participants, createdAt := now }],
                  nextId := db.nextId + 1 }, db.nextId)

/-- Arguments of `directMessages.addParticipant`. -/
structure DmAddArgs where
  dmId : Nat
  userId : Nat
deriving Repr, DecidableEq

/-- `directMessages.addParticipant`: caller must be a participant, target
must not be; appends the target (no uniqueness re-check against other DMs). -/
def dmAddParticipant (auth : Option Nat) (args : DmAddArgs) (db : DB) :
    Except String (DB × Nat) :=
  match auth with
  | none => .error "Not authenticated"
  | some currentUserId =>
    match findDm db args.dmId with
    | none => .error "DM not found"
    | some dm =>
      if currentUserId ∉ dm.participants then .error "Not a participant of this DM"
      else if args.userId ∈ dm.participants then .error "User is already a participant"
      else
        .ok ({ db with directMessages := db.directMessages.map (fun d =>
          if d.id == args.dmId then
            { d with participants := d.participants ++ [args.userId] } else d) },
          args.dmId)

/-- One element of a `directMessages.list` result. -/
structure DmListed where
  dm : DirectMessage
  participants : List SenderInfo
deriving Repr, DecidableEq

/-- `directMessages.list` (query; empty list for non-members). -/
def dmList (auth : Option Nat) (w : Nat) (db : DB) : Except String (List DmListed) :=
  match auth with
  | none => .ok []
  | some userId =>
    match memberLookup db w userId with
    | .error e => .error e
    | .ok none => .ok []
    | .ok (some _) =>
      let allDms := db.directMessages.filter (fun d => d.workspaceId == w)
      let dms := allDms.filter (fun d => d.participants.contains userId)
      .ok (dms.map (fun d =>
        { dm := d, participants := d.participants.filterMap (senderInfo db) }))

/-! ## Result-inspection helpers (used to state concrete evaluations) -/

/-- Does a fallible handler result succeed with a value satisfying `p`? -/
def okSat (e : Except String α) (p : α → Bool) : Bool :=
  match e with
  | .ok a => p a
  | .error _ => false

/-! ## Concrete database states for counterexamples and witnesses -/

/-- A small populated workspace: workspace 10 owned by user 1, member user 2,
admin user 3; public channel 20 and private channel 21; DM 30 between 1 and 2;
channel messages 40 (top-level, t=100), 41 (reply to 40, t=200), 42
(top-level, t=300); a second workspace 11 with channel 22 and DM 31 (for
cross-workspace reference tests); one open invite 50 with token "tok1".
User 5 exists but belongs to no workspace. -/
def dbA : DB :=
  { users := [⟨1, some "alice", none, none⟩, ⟨2, some "bob", none, none⟩,
              ⟨3, some "carol", none, none⟩, ⟨5, some "eve", none, none⟩],
    workspaces := [⟨10, "Acme", none, 1, 50⟩, ⟨11, "Other", none, 3, 60⟩],
    workspaceMembers := [⟨80, 10, 1, .owner, 50⟩, ⟨81, 10, 2, .member, 55⟩,
                         ⟨82, 10, 3, .admin, 56⟩, ⟨83, 11, 3, .owner, 60⟩],
    channels := [⟨20, 10, "general", some "General discussion", false, 1, 50⟩,
                 ⟨21, 10, "secrets", none, true, 1, 51⟩,
                 ⟨22, 11, "other-general", none, false, 3, 60⟩],
    channelMembers := [⟨85, 20, 1, 50⟩, ⟨86, 21, 1, 51⟩],
    directMessages := [⟨30, 10, [1, 2], 70⟩, ⟨31, 11, [3], 71⟩],
    messages := [⟨40, 10, some 20, none, 1, "hello", [], none, none, none, none, 100⟩,
                 ⟨41, 10, some 20, none, 2, "reply", [], none, some 40, none, none, 200⟩,
                 ⟨42, 10, some 20, none, 1, "second", [], none, none, none, none, 300⟩],
    invites := [⟨50, 10, "eve@x", "tok1", 1, 10000, none, 90⟩],
    reactions := [],
    rl := [],
    nextId := 200 }

/-- A state exhibiting the DM-participancy leak: user 5 has NO membership
row in workspace 10 but IS a participant of DM 32 (a reachable state, since
neither DM creation nor `addParticipant` checks participants' workspace
membership); message 45 lives in that DM. -/
def dbC1 : DB :=
  { users := [⟨1, some "alice", none, none⟩, ⟨5, some "eve", none, none⟩],
    workspaces := [⟨10, "Acme", none, 1, 50⟩],
    workspaceMembers := [⟨80, 10, 1, .owner, 50⟩],
    channels := [],
    channelMembers := [],
    directMessages := [⟨32, 10, [1, 5], 70⟩],
    messages := [⟨45, 10, none, some 32, 1, "psst", [], none, none, none,
                  none, 100⟩],
    invites := [],
    reactions := [],
    rl := [],
    nextId := 200 }

/-- A state with two DMs in workspace 10 whose participant sets are one
`addParticipant` apart: DM 100 = {1,2,3}, DM 101 = {1,2}. -/
def dbC3 : DB :=
  { users := [⟨1, none, none, none⟩, ⟨2, none, none, none⟩, ⟨3, none, none, none⟩],
    workspaces := [⟨10, "Acme", none, 1, 50⟩],
    workspaceMembers := [⟨80, 10, 1, .owner, 50⟩, ⟨81, 10, 2, .member, 55⟩,
                         ⟨82, 10, 3, .member, 56⟩],
    channels := [],
    channelMembers := [],
    directMessages := [⟨100, 10, [1, 2, 3], 70⟩, ⟨101, 10, [1, 2], 71⟩],
    messages := [],
    invites := [],
    reactions := [],
    rl := [],
    nextId := 200 }

/-- A state in which user 1 (an owner) has fully exhausted the
`createInvite` fixed-window quota (10 per hour): the window started at
t=1000 and 10 calls were already consumed. -/
def dbC4 : DB :=
  { users := [⟨1, none, none, none⟩],
    workspaces := [⟨10, "Acme", none, 1, 50⟩],
    workspaceMembers := [⟨80, 10, 1, .owner, 50⟩],
    channels := [],
    channelMembers := [],
    directMessages := [],
    messages := [],
    invites := [],
    reactions := [],
    rl := [{ name := "createInvite", key := 1, windowStart := 1000, used := 10 }],
    nextId := 200 }

/-- A state for the edit claim: message 70 in workspace 10 was sent by
user 7 and is soft-deleted; user 7 is not a member of any workspace. -/
def dbC10 : DB :=
  { users := [⟨2, none, none, none⟩, ⟨7, none, none, none⟩],
    workspaces := [⟨10, "Acme", none, 1, 50⟩],
    workspaceMembers := [⟨80, 10, 1, .owner, 50⟩, ⟨81, 10, 2, .member, 55⟩],
    channels := [⟨20, 10, "general", none, false, 1, 50⟩],
    channelMembers := [],
    directMessages := [],
    messages := [⟨70, 10, some 20, none, 7, "oops", [], none, none, none, some 350, 100⟩],
    invites := [],
    reactions := [],
    rl := [],
    nextId := 200 }

/-! ## General helper lemmas -/

theorem filter_map_pres {α : Type} (l : List α) (f : α → α) (p : α → Bool)
    (h : ∀ x, p (f x) = p x) : (l.map f).filter p = (l.filter p).map f := by
  rw [List.filter_map]
  congr 1
  exact List.filter_congr (fun x _ => h x)

theorem find?_map_pres {α : Type} (l : List α) (f : α → α) (p : α → Bool)
    (h : ∀ x, p (f x) = p x) : (l.map f).find? p = (l.find? p).map f := by
  rw [List.find?_map]
  have hc : p ∘ f = p := funext h
  rw [hc]

theorem uniqueMatch_ok_some {α : Type} (p : α → Bool) (l : List α) (a : α)
    (h : uniqueMatch p l = .ok (some a)) : a ∈ l ∧ p a = true := by
  unfold uniqueMatch at h
  cases hf : l.filter p with
  | nil => simp only [hf] at h; exact absurd h (by simp)
  | cons x t =>
    cases t with
    | nil =>
      simp only [hf, Except.ok.injEq, Option.some.injEq] at h
      subst h
      have hx : x ∈ l.filter p := by rw [hf]; exact List.mem_singleton_self x
      exact List.mem_filter.mp hx
    | cons y t2 => simp only [hf] at h; exact Except.noConfusion h

/-- Shape of a successful `updateMemberRole` call: who the actor and target
are, the role constraints the code enforced, and the exact patch applied. -/
theorem updateMemberRole_ok_shape (u : Nat) (args : RoleArgs) (db db' : DB)
    (hok : updateMemberRole (some u) args db = .ok db') :
    ∃ cur tm, memberLookup db args.workspaceId u = .ok (some cur) ∧
      (cur.role = Role.owner ∨ cur.role = Role.admin) ∧
      memberLookup db args.workspaceId args.userId = .ok (some tm) ∧
      tm.role ≠ Role.owner ∧
      (args.newRole = NewRole.admin → cur.role = Role.owner) ∧
      db' = rolePatch db tm.id args.newRole := by
  unfold updateMemberRole at hok
  cases hcur : memberLookup db args.workspaceId u with
  | error e => simp only [hcur] at hok; exact Except.noConfusion hok
  | ok cur =>
    simp only [hcur] at hok
    cases cur with
    | none => simp at hok
    | some c =>
      by_cases hperm : ((some c).any
          (fun m => m.role == Role.owner || m.role == Role.admin) = true)
      · simp only [hperm, not_true_eq_false, if_false, ite_false] at hok
        have hperm' : c.role = Role.owner ∨ c.role = Role.admin := by
          simpa using hperm
        cases htm : memberLookup db args.workspaceId args.userId with
        | error e => simp only [htm] at hok; exact Except.noConfusion hok
        | ok tmo =>
          simp only [htm] at hok
          cases tmo with
          | none => simp at hok
          | some tm =>
            by_cases hrole : tm.role = Role.owner
            · simp [hrole] at hok
            · simp only [hrole, if_false, ite_false] at hok
              by_cases hpr : (args.newRole = NewRole.admin ∧
                  ¬ ((some c).any (fun m => m.role == Role.owner) = true))
              · simp [hpr] at hok
              · simp only [hpr, if_false, ite_false] at hok
                refine ⟨c, tm, rfl, hperm', rfl, hrole, ?_, ?_⟩
                · intro hnr
                  by_contra hco
                  exact hpr ⟨hnr, fun h => hco (by simpa using h)⟩
                · simp only [Except.ok.injEq] at hok
                  exact hok.symm
      · simp [hperm] at hok

theorem mem_channelTimeline {db : DB} {cid : Nat} {y : Message}
    (hy : y ∈ channelTimeline db cid) :
    y ∈ db.messages ∧ y.channelId = some cid ∧ y.deletedAt = none ∧
      y.parentMessageId = none := by
  unfold channelTimeline at hy
  rw [List.mem_reverse] at hy
  have h := List.mem_filter.mp hy
  refine ⟨h.1, ?_, ?_, ?_⟩ <;>
    · have h2 := h.2
      simp only [Bool.and_eq_true, beq_iff_eq, Option.isNone_iff_eq_none] at h2
      tauto

theorem mem_dmTimeline {db : DB} {did : Nat} {y : Message}
    (hy : y ∈ dmTimeline db did) :
    y ∈ db.messages ∧ y.dmId = some did ∧ y.deletedAt = none ∧
      y.parentMessageId = none := by
  unfold dmTimeline at hy
  rw [List.mem_reverse] at hy
  have h := List.mem_filter.mp hy
  refine ⟨h.1, ?_, ?_, ?_⟩ <;>
    · have h2 := h.2
      simp only [Bool.and_eq_true, beq_iff_eq, Option.isNone_iff_eq_none] at h2
      tauto

theorem mem_threadReplies {db : DB} {pid : Nat} {y : Message}
    (hy : y ∈ threadReplies db pid) :
    y ∈ db.messages ∧ y.parentMessageId = some pid ∧ y.deletedAt = none := by
  unfold threadReplies at hy
  have h := List.mem_filter.mp hy
  refine ⟨h.1, ?_, ?_⟩ <;>
    · have h2 := h.2
      simp only [Bool.and_eq_true, beq_iff_eq, Option.isNone_iff_eq_none] at h2
      tauto

/-- Every successful `messages.list` result is either an authorization-empty
page or an enriched slice of the corresponding channel/DM timeline. -/
theorem listMessages_ok_shape (auth : Option Nat) (args : ListArgs)
    (popts : PageOpts) (db : DB) (pg : PageRes ListedMessage)
    (hok : listMessages auth args popts db = .ok pg) :
    pg.page = [] ∨
    (∃ cid, args.channelId = some cid ∧
      pg.page = (((channelTimeline db cid).drop popts.cursor).take
        popts.numItems).map (enrichListed db)) ∨
    (∃ did, args.channelId = none ∧ args.dmId = some did ∧
      pg.page = (((dmTimeline db did).drop popts.cursor).take
        popts.numItems).map (enrichListed db)) := by
  unfold listMessages at hok
  cases auth with
  | none =>
    left
    have := Except.ok.inj hok
    rw [← this]
    rfl
  | some u =>
    cases hc : args.channelId with
    | some cid =>
      simp only [hc] at hok
      cases hch : findChannel db cid with
      | none =>
        simp only [hch] at hok
        left; rw [← Except.ok.inj hok]; rfl
      | some ch =>
        simp only [hch] at hok
        cases hwm : memberLookup db ch.workspaceId u with
        | error e => simp only [hwm] at hok; exact Except.noConfusion hok
        | ok wm =>
          simp only [hwm] at hok
          cases wm with
          | none => left; rw [← Except.ok.inj hok]; rfl
          | some w0 =>
            by_cases hpriv : ch.isPrivate = true
            · simp only [hpriv, if_true, ite_true] at hok
              cases hcm : channelMemberLookup db cid u with
              | error e => simp only [hcm] at hok; exact Except.noConfusion hok
              | ok cm =>
                simp only [hcm] at hok
                cases cm with
                | none => left; rw [← Except.ok.inj hok]; rfl
                | some c0 =>
                  right; left
                  refine ⟨cid, rfl, ?_⟩
                  simp only at hok
                  rw [← Except.ok.inj hok]
                  rfl
            · simp only [hpriv, if_false, ite_false] at hok
              right; left
              refine ⟨cid, rfl, ?_⟩
              rw [← Except.ok.inj hok]
              rfl
    | none =>
      simp only [hc] at hok
      cases hd : args.dmId with
      | some did =>
        simp only [hd] at hok
        cases hdm : findDm db did with
        | none =>
          simp only [hdm] at hok
          left; rw [← Except.ok.inj hok]; rfl
        | some dm =>
          simp only [hdm] at hok
          by_cases hp : u ∈ dm.participants
          · simp only [hp, if_true, ite_true] at hok
            right; right
            refine ⟨did, rfl, rfl, ?_⟩
            rw [← Except.ok.inj hok]
            rfl
          · simp only [hp, if_false, ite_false] at hok
            left; rw [← Except.ok.inj hok]; rfl
      | none =>
        simp only [hd] at hok
        left; rw [← Except.ok.inj hok]; rfl

/-- Every successful `getThreadMessages` result is either an
authorization-empty page or an enriched slice of the thread-replies list. -/
theorem getThreadMessages_ok_shape (auth : Option Nat) (pid : Nat)
    (popts : PageOpts) (db : DB) (pg : PageRes ThreadMessage)
    (hok : getThreadMessages auth pid popts db = .ok pg) :
    pg.page = [] ∨
    pg.page = (((threadReplies db pid).drop popts.cursor).take
      popts.numItems).map (enrichThread db) := by
  unfold getThreadMessages at hok
  cases auth with
  | none => left; rw [← Except.ok.inj hok]; rfl
  | some u =>
    cases hfind : findMessage db pid with
    | none => simp only [hfind] at hok; left; rw [← Except.ok.inj hok]; rfl
    | some pm =>
      simp only [hfind] at hok
      cases hwm : memberLookup db pm.workspaceId u with
      | error e => simp only [hwm] at hok; exact Except.noConfusion hok
      | ok wm =>
        simp only [hwm] at hok
        cases wm with
        | none => left; rw [← Except.ok.inj hok]; rfl
        | some w0 =>
          right
          simp only at hok
          rw [← Except.ok.inj hok]
          rfl

/-- A successful `messages.remove` found the message and applied exactly the
soft-delete patch. -/
theorem removeMessage_ok_shape (u now mid : Nat) (db db' : DB)
    (hok : removeMessage (some u) now mid db = .ok db') :
    (∃ m, findMessage db mid = some m) ∧ db' = removePatch db mid now := by
  unfold removeMessage at hok
  cases hfind : findMessage db mid with
  | none => simp only [hfind] at hok; exact Except.noConfusion hok
  | some m =>
    simp only [hfind] at hok
    cases hwm : memberLookup db m.workspaceId u with
    | error e => simp only [hwm] at hok; exact Except.noConfusion hok
    | ok wm =>
      simp only [hwm] at hok
      refine ⟨⟨m, rfl⟩, ?_⟩
      cases hcond : (!(m.senderId == u) &&
          !(wm.any (fun x => x.role == Role.owner || x.role == Role.admin))) with
      | true =>
        simp only [hcond, if_true, ite_true] at hok
        exact Except.noConfusion hok
      | false =>
        simp only [hcond, if_false, ite_false] at hok
        exact (Except.ok.inj hok).symm

theorem filter_filter2 {α : Type} (p q : α → Bool) (l : List α) :
    (l.filter p).filter q = l.filter (fun a => p a && q a) := by
  induction l with
  | nil => rfl
  | cons a t ih =>
    by_cases hp : p a = true <;> by_cases hq : q a = true <;>
      simp [List.filter_cons, hp, hq, ih]

/-- Deleting a row by id (over id-unique rows) is a permutation away from
removing one occurrence. -/
theorem reactions_perm_delete (r : ReactionRow) (l : List ReactionRow)
    (hr : r ∈ l) (hnd : (l.map (fun x => x.id)).Nodup) :
    l.Perm (r :: l.filter (fun x => x.id != r.id)) := by
  induction l with
  | nil => cases hr
  | cons a t ih =>
    simp only [List.map_cons, List.nodup_cons] at hnd
    rcases List.mem_cons.mp hr with heq | hmem
    · subst heq
      have ht : t.filter (fun x => x.id != r.id) = t := by
        apply List.filter_eq_self.mpr
        intro y hy
        simp only [bne_iff_ne, ne_eq]
        intro hid
        exact hnd.1 (by rw [← hid]; exact List.mem_map_of_mem _ hy)
      simp [List.filter_cons, ht]
    · have ha : (a.id != r.id) = true := by
        simp only [bne_iff_ne, ne_eq]
        intro h
        exact hnd.1 (by rw [h]; exact List.mem_map_of_mem _ hmem)
      rw [List.filter_cons, if_pos ha]
      exact ((ih hmem hnd.2).cons a).trans (List.Perm.swap r a _)

/-- Shape of a successful `addReaction`: the rate limit succeeded, and the
mutation either deleted the unique existing row or inserted a fresh one. -/
theorem addReaction_ok_shape (u now : Nat) (args : ReactionArgs) (db db' : DB)
    (hok : addReaction (some u) now args db = .ok db') :
    ∃ rl1, rlLimit "addReaction" u now db.rl = .ok rl1 ∧
      ((∃ r, (db.reactions.filter (fun x =>
            x.messageId == args.messageId && x.userId == u)).filter
              (fun x => x.emoji == args.emoji) = [r] ∧
          db' = { db with
                    rl := rl1,
                    reactions := db.reactions.filter
                      (fun x => x.id != r.id) }) ∨
        ((db.reactions.filter (fun x =>
            x.messageId == args.messageId && x.userId == u)).filter
              (fun x => x.emoji == args.emoji) = [] ∧
          db' = { db with
                    rl := rl1,
                    reactions := db.reactions ++
                      [⟨db.nextId, args.messageId, u, args.emoji, now⟩],
                    nextId := db.nextId + 1 })) := by
  unfold addReaction at hok
  cases hrl : rlLimit "addReaction" u now db.rl with
  | error e => simp only [hrl] at hok; exact Except.noConfusion hok
  | ok rl1 =>
    simp only [hrl] at hok
    refine ⟨rl1, rfl, ?_⟩
    unfold uniqueMatch at hok
    cases hf : (db.reactions.filter (fun x =>
        x.messageId == args.messageId && x.userId == u)).filter
          (fun x => x.emoji == args.emoji) with
    | nil =>
      simp only [hf] at hok
      exact Or.inr ⟨rfl, (Except.ok.inj hok).symm⟩
    | cons r t =>
      cases t with
      | nil =>
        simp only [hf] at hok
        exact Or.inl ⟨r, rfl, (Except.ok.inj hok).symm⟩
      | cons r2 t2 =>
        simp only [hf] at hok
        exact Except.noConfusion hok

theorem pairwise_slice {α : Type} (R : α → α → Prop) (l : List α)
    (hl : l.Pairwise R) (c n : Nat) : ((l.drop c).take n).Pairwise R :=
  hl.sublist ((List.take_sublist _ _).trans (List.drop_sublist _ _))

theorem pairwise_cross_slices {α : Type} (R : α → α → Prop) (l : List α)
    (hl : l.Pairwise R) (c n k : Nat) :
    ∀ x ∈ (l.drop c).take n, ∀ y ∈ (l.drop (c + n)).take k, R x y := by
  intro x hx y hy
  have hPW : (l.drop c).Pairwise R := hl.sublist (List.drop_sublist _ _)
  rw [← List.take_append_drop n (l.drop c)] at hPW
  obtain ⟨-, -, hcross⟩ := List.pairwise_append.mp hPW
  have hy' : y ∈ (l.drop c).drop n := by
    rw [List.drop_drop]
    exact List.mem_of_mem_take hy
  exact hcross x hx y hy'

theorem channelTimeline_pairwise (db : DB) (cid : Nat)
    (hmono : db.messages.Pairwise (fun a b => a.createdAt < b.createdAt)) :
    (channelTimeline db cid).Pairwise
      (fun a b => b.createdAt < a.createdAt) := by
  unfold channelTimeline
  rw [List.pairwise_reverse]
  exact hmono.sublist (List.filter_sublist _)

theorem dmTimeline_pairwise (db : DB) (did : Nat)
    (hmono : db.messages.Pairwise (fun a b => a.createdAt < b.createdAt)) :
    (dmTimeline db did).Pairwise (fun a b => b.createdAt < a.createdAt) := by
  unfold dmTimeline
  rw [List.pairwise_reverse]
  exact hmono.sublist (List.filter_sublist _)

theorem threadReplies_pairwise (db : DB) (pid : Nat)
    (hmono : db.messages.Pairwise (fun a b => a.createdAt < b.createdAt)) :
    (threadReplies db pid).Pairwise (fun a b => a.createdAt < b.createdAt) :=
  hmono.sublist (List.filter_sublist _)

theorem dedupFirstAux_mem (l : List Nat) : ∀ (seen : List Nat) (a : Nat),
    a ∈ dedupFirstAux seen l ↔ (a ∈ l ∧ a ∉ seen) := by
  induction l with
  | nil => intro seen a; simp [dedupFirstAux]
  | cons x xs ih =>
    intro seen a
    by_cases hx : x ∈ seen
    · simp only [dedupFirstAux, if_pos hx]
      rw [ih seen a]
      constructor
      · rintro ⟨h1, h2⟩
        exact ⟨List.mem_cons_of_mem x h1, h2⟩
      · rintro ⟨h1, h2⟩
        rcases List.mem_cons.mp h1 with heq | h1'
        · exact absurd (heq ▸ hx) h2
        · exact ⟨h1', h2⟩
    · simp only [dedupFirstAux, if_neg hx, List.mem_cons]
      rw [ih (x :: seen) a]
      constructor
      · rintro (heq | ⟨h1, h2⟩)
        · subst heq; exact ⟨Or.inl rfl, hx⟩
        · refine ⟨Or.inr h1, ?_⟩
          intro hs
          exact h2 (List.mem_cons_of_mem x hs)
      · rintro ⟨heq | h1, h2⟩
        · exact Or.inl heq
        · by_cases hax : a = x
          · exact Or.inl hax
          · refine Or.inr ⟨h1, ?_⟩
            intro hs
            rcases List.mem_cons.mp hs with h | h
            · exact hax h
            · exact h2 h

theorem dedupFirstAux_nodup (l : List Nat) :
    ∀ seen, (dedupFirstAux seen l).Nodup := by
  induction l with
  | nil => intro seen; simp [dedupFirstAux]
  | cons x xs ih =>
    intro seen
    by_cases hx : x ∈ seen
    · simp only [dedupFirstAux, if_pos hx]
      exact ih seen
    · simp only [dedupFirstAux, if_neg hx]
      refine List.nodup_cons.mpr ⟨?_, ih (x :: seen)⟩
      rw [dedupFirstAux_mem]
      rintro ⟨-, h2⟩
      exact h2 (List.mem_cons_self x seen)

theorem dedupFirst_mem (l : List Nat) (a : Nat) :
    a ∈ dedupFirst l ↔ a ∈ l := by
  unfold dedupFirst
  rw [dedupFirstAux_mem]
  simp

theorem dedupFirst_nodup (l : List Nat) : (dedupFirst l).Nodup :=
  dedupFirstAux_nodup l []

theorem nodup_length_eq (l1 l2 : List Nat) (h1 : l1.Nodup) (h2 : l2.Nodup)
    (hm : ∀ a, a ∈ l1 ↔ a ∈ l2) : l1.length = l2.length := by
  rw [← List.toFinset_card_of_nodup h1, ← List.toFinset_card_of_nodup h2]
  congr 1
  ext a
  simp only [List.mem_toFinset]
  exact hm a

theorem matchDm_congr (ps1 ps2 : List Nat) (hlen : ps1.length = ps2.length)
    (hm : ∀ a, a ∈ ps1 ↔ a ∈ ps2) (d : DirectMessage) :
    matchDm ps1 d = matchDm ps2 d := by
  unfold matchDm
  rw [hlen]
  congr 1
  apply Bool.eq_iff_iff.mpr
  simp only [List.all_eq_true]
  constructor <;> intro h a ha
  · exact h a ((hm a).mpr ha)
  · exact h a ((hm a).mp ha)

theorem find?_append_none {α : Type} (p : α → Bool) (l1 l2 : List α)
    (h : l1.find? p = none) : (l1 ++ l2).find? p = l2.find? p := by
  induction l1 with
  | nil => rfl
  | cons a t ih =>
    rw [List.find?_cons] at h
    cases hpa : p a with
    | true => rw [hpa] at h; exact Option.noConfusion h
    | false =>
      rw [hpa] at h
      rw [List.cons_append, List.find?_cons, hpa]
      exact ih h

/-! ## Claim theorems -/

/-- **C10**: `messages.edit` checks only that the caller is the message's
original sender — neither deletion state nor workspace membership.  When the
caller is the sender, edit succeeds (also on a soft-deleted message),
updating `text` and setting `editedAt` while leaving every other field (in
particular `deletedAt`) unchanged; for any other caller it fails with
"Cannot edit this message" and performs no write. -/
theorem C10_edit_checks_only_sender (db : DB) (u now : Nat) (args : EditArgs)
    (m : Message) (hfind : findMessage db args.messageId = some m) :
    (m.senderId = u →
      editMessage (some u) now args db =
        .ok (editPatch db args.messageId args.text now) ∧
      findMessage (editPatch db args.messageId args.text now) args.messageId =
        some { m with text := args.text, editedAt := some now }) ∧
    (m.senderId ≠ u →
      editMessage (some u) now args db = .error "Cannot edit this message") := by
  have hfind' := hfind
  unfold findMessage at hfind'
  have hid : (m.id == args.messageId) = true := by
    have := List.find?_some hfind'
    simpa using this
  constructor
  · intro hs
    constructor
    · simp [editMessage, hfind, hs]
    · unfold editPatch findMessage
      rw [find?_map_pres _ _ _ ?hp]
      case hp =>
        intro x
        by_cases hx : (x.id == args.messageId) = true <;> simp [hx]
      rw [hfind']
      have hid' : m.id = args.messageId := by simpa using hid
      simp [hid']
  · intro hs
    simp [editMessage, hfind, hs]

/-- Witness for C10: in `dbC10`, message 70 is soft-deleted and its sender
(user 7) is a member of no workspace; the sender's edit still succeeds and
keeps `deletedAt`, while user 2's edit fails. -/
theorem C10_edit_checks_only_sender_witness :
    (editMessage (some 7) 400 ⟨70, "fixed"⟩ dbC10 =
        .ok (editPatch dbC10 70 "fixed" 400) ∧
      findMessage (editPatch dbC10 70 "fixed" 400) 70 =
        some { id := 70, workspaceId := 10, channelId := some 20, dmId := none,
               senderId := 7, text := "fixed", attachments := [],
               linkPreviews := none, parentMessageId := none,
               editedAt := some 400, deletedAt := some 350, createdAt := 100 }) ∧
    editMessage (some 2) 400 ⟨70, "fixed"⟩ dbC10 =
      .error "Cannot edit this message" :=
  ⟨(C10_edit_checks_only_sender dbC10 7 400 ⟨70, "fixed"⟩ _ rfl).1 rfl,
   (C10_edit_checks_only_sender dbC10 2 400 ⟨70, "fixed"⟩ _ rfl).2 (by decide)⟩

/-- **C2 counterexample**: with BOTH `channelId` and `dmId` set, `send` does
not raise an error — it validates only the channel and stores both
references on the inserted message (so the stored message does not have
exactly one of the two set). -/
theorem C2_counterexample :
    okSat (send (some 1) 400 (fun _ => none)
        { workspaceId := 10, channelId := some 20, dmId := some 30, text := "hi",
          attachments := none, linkPreviews := none, parentMessageId := none } dbA)
      (fun r => r.2 == 200 && r.1.messages.any
        (fun m => m.id == 200 && m.channelId == some 20 && m.dmId == some 30)) =
      true := by
  decide

/-- **C2 (amended)**: `send` requires at least one of `channelId`/`dmId`
(raising "Must specify either channelId or dmId" when neither is given) and
validates the workspace reference of the branch it takes — the channel when
`channelId` is present (`dmId` is then ignored entirely, not rejected),
otherwise the DM — raising "Invalid channel"/"Invalid direct message" on a
missing or cross-workspace target.  On success the stored message carries
`channelId` and `dmId` exactly as given (both, when both were given). -/
theorem C2_send_target_validation (db : DB) (u now : Nat)
    (getUrl : Nat → Option String) (args : SendArgs) (rl1 : List RLEntry)
    (wm : WorkspaceMember)
    (hrl : rlLimit "sendMessage" u now db.rl = .ok rl1)
    (hwm : memberLookup db args.workspaceId u = .ok (some wm)) :
    (args.channelId = none → args.dmId = none →
      send (some u) now getUrl args db =
        .error "Must specify either channelId or dmId") ∧
    (∀ cid, args.channelId = some cid →
      (findChannel db cid = none ∨
        (∃ ch, findChannel db cid = some ch ∧ ch.workspaceId ≠ args.workspaceId)) →
      send (some u) now getUrl args db = .error "Invalid channel") ∧
    (∀ did, args.channelId = none → args.dmId = some did →
      (findDm db did = none ∨
        (∃ dm, findDm db did = some dm ∧ dm.workspaceId ≠ args.workspaceId)) →
      send (some u) now getUrl args db = .error "Invalid direct message") ∧
    (∀ db' newId, send (some u) now getUrl args db = .ok (db', newId) →
      ∃ msg, db'.messages = db.messages ++ [msg] ∧ msg.id = newId ∧
        msg.channelId = args.channelId ∧ msg.dmId = args.dmId) := by
  refine ⟨?_, ?_, ?_, ?_⟩
  · intro h1 h2
    simp [send, hrl, hwm, sendTargetCheck, h1, h2]
  · intro cid hc hbad
    rcases hbad with hnone | ⟨ch, hch, hw⟩
    · simp [send, hrl, hwm, sendTargetCheck, hc, hnone]
    · simp [send, hrl, hwm, sendTargetCheck, hc, hch, hw]
  · intro did hc hd hbad
    rcases hbad with hnone | ⟨dm, hdm, hw⟩
    · simp [send, hrl, hwm, sendTargetCheck, hc, hd, hnone]
    · simp [send, hrl, hwm, sendTargetCheck, hc, hd, hdm, hw]
  · intro db' newId hok
    unfold send at hok
    simp only [hrl, hwm] at hok
    cases htc : sendTargetCheck db u args with
    | error e => rw [htc] at hok; simp at hok
    | ok v =>
      rw [htc] at hok
      simp only [Except.ok.injEq, Prod.mk.injEq] at hok
      obtain ⟨hdb, hid⟩ := hok
      refine ⟨{ id := db.nextId, workspaceId := args.workspaceId,
                channelId := args.channelId, dmId := args.dmId, senderId := u,
                text := args.text,
                attachments := (args.attachments.getD []).map (fun a =>
                  { storageId := a.storageId, filename := a.filename,
                    mimeType := a.mimeType, size := a.size,
                    url := getUrl a.storageId }),
                linkPreviews := args.linkPreviews,
                parentMessageId := args.parentMessageId,
                editedAt := none, deletedAt := none, createdAt := now },
              ?_, ?_, rfl, rfl⟩
      · rw [← hdb]
      · rw [← hid]

/-- Witness for C2 (amended) on `dbA`: neither-reference and
cross-workspace-reference errors, and the stored both-set message of the
counterexample call. -/
theorem C2_send_target_validation_witness :
    (send (some 1) 400 (fun _ => none)
        ⟨10, none, none, "x", none, none, none⟩ dbA =
      .error "Must specify either channelId or dmId") ∧
    (send (some 1) 400 (fun _ => none)
        ⟨10, some 22, none, "x", none, none, none⟩ dbA =
      .error "Invalid channel") ∧
    (send (some 1) 400 (fun _ => none)
        ⟨10, none, some 31, "x", none, none, none⟩ dbA =
      .error "Invalid direct message") ∧
    (∃ msg, ({ dbA with
                rl := [⟨"sendMessage", 1, 400, 1⟩],
                messages := dbA.messages ++
                  [⟨200, 10, some 20, some 30, 1, "hi", [], none, none,
                    none, none, 400⟩],
                nextId := 201 } : DB).messages = dbA.messages ++ [msg] ∧
      msg.id = 200 ∧ msg.channelId = some 20 ∧ msg.dmId = some 30) :=
  ⟨(C2_send_target_validation dbA 1 400 (fun _ => none)
      ⟨10, none, none, "x", none, none, none⟩ _ ⟨80, 10, 1, .owner, 50⟩
      rfl rfl).1 rfl rfl,
   (C2_send_target_validation dbA 1 400 (fun _ => none)
      ⟨10, some 22, none, "x", none, none, none⟩ _ ⟨80, 10, 1, .owner, 50⟩
      rfl rfl).2.1 22 rfl
      (Or.inr ⟨⟨22, 11, "other-general", none, false, 3, 60⟩, rfl, by decide⟩),
   (C2_send_target_validation dbA 1 400 (fun _ => none)
      ⟨10, none, some 31, "x", none, none, none⟩ _ ⟨80, 10, 1, .owner, 50⟩
      rfl rfl).2.2.1 31 rfl rfl
      (Or.inr ⟨⟨31, 11, [3], 71⟩, rfl, by decide⟩),
   (C2_send_target_validation dbA 1 400 (fun _ => none)
      ⟨10, some 20, some 30, "hi", none, none, none⟩ _ ⟨80, 10, 1, .owner, 50⟩
      rfl rfl).2.2.2 _ 200 rfl⟩

/-- **C7**: owner-role immutability — `updateMemberRole` targeting a member
whose current role is `owner` always fails, whatever the acting user's role;
a successful promotion to `admin` implies the acting user's own role is
`owner`; and no successful call changes a membership row whose role is
`owner` (so the workspace owner's role stays `owner` in every state this
mutation can reach). -/
theorem C7_owner_role_immutable (auth : Option Nat) (args : RoleArgs) (db : DB) :
    ((∃ tm, memberLookup db args.workspaceId args.userId = .ok (some tm) ∧
        tm.role = Role.owner) →
      ∃ e, updateMemberRole auth args db = .error e) ∧
    (∀ db', updateMemberRole auth args db = .ok db' →
      args.newRole = NewRole.admin →
      ∃ u cur, auth = some u ∧
        memberLookup db args.workspaceId u = .ok (some cur) ∧
        cur.role = Role.owner) ∧
    (∀ db', updateMemberRole auth args db = .ok db' →
      (db.workspaceMembers.map (fun m => m.id)).Nodup →
      ∀ r ∈ db.workspaceMembers, r.role = Role.owner →
        r ∈ db'.workspaceMembers) := by
  refine ⟨?_, ?_, ?_⟩
  · rintro ⟨tm, htm, hrole⟩
    cases hres : updateMemberRole auth args db with
    | error e => exact ⟨e, rfl⟩
    | ok db' =>
      exfalso
      cases auth with
      | none => exact Except.noConfusion hres
      | some u =>
        obtain ⟨cur, tm', hcur, hperm, htm', htrole, _, _⟩ :=
          updateMemberRole_ok_shape u args db db' hres
        rw [htm] at htm'
        have heq : tm = tm' := Option.some.inj (Except.ok.inj htm')
        exact htrole (heq ▸ hrole)
  · intro db' hok hnr
    cases auth with
    | none => exact Except.noConfusion hok
    | some u =>
      obtain ⟨cur, tm, hcur, hperm, htm, hrole, hpromote, hdb⟩ :=
        updateMemberRole_ok_shape u args db db' hok
      exact ⟨u, cur, rfl, hcur, hpromote hnr⟩
  · intro db' hok hnodup r hr hrrole
    cases auth with
    | none => exact Except.noConfusion hok
    | some u =>
      obtain ⟨cur, tm, hcur, hperm, htm, htrole, hpromote, hdb⟩ :=
        updateMemberRole_ok_shape u args db db' hok
      subst hdb
      have htm_mem := uniqueMatch_ok_some _ _ tm htm
      have hne : ¬ (r.id = tm.id) := by
        intro he
        have hrt : r = tm :=
          List.inj_on_of_nodup_map hnodup hr htm_mem.1 he
        rw [hrt] at hrrole
        exact htrole hrrole
      have hm := List.mem_map_of_mem (fun m : WorkspaceMember =>
        if m.id == tm.id then { m with role := args.newRole.toRole } else m) hr
      have hpatch : (fun m : WorkspaceMember =>
          if m.id == tm.id then { m with role := args.newRole.toRole } else m) r
          = r := by
        simp [hne]
      rw [hpatch] at hm
      simpa [rolePatch] using hm

/-- Witness for C7 on `dbA`: admin 3 cannot change owner 1's role; owner 1
successfully promotes member 2 to admin, the success implying owner
actorship and preserving owner rows. -/
theorem C7_owner_role_immutable_witness :
    (∃ e, updateMemberRole (some 3) ⟨10, 1, NewRole.member⟩ dbA = .error e) ∧
    (∃ u cur, (some 1 : Option Nat) = some u ∧
      memberLookup dbA 10 u = .ok (some cur) ∧ cur.role = Role.owner) ∧
    (∀ r ∈ dbA.workspaceMembers, r.role = Role.owner →
      r ∈ (rolePatch dbA 81 NewRole.admin).workspaceMembers) :=
  ⟨(C7_owner_role_immutable (some 3) ⟨10, 1, NewRole.member⟩ dbA).1
      ⟨⟨80, 10, 1, .owner, 50⟩, rfl, rfl⟩,
   (C7_owner_role_immutable (some 1) ⟨10, 2, NewRole.admin⟩ dbA).2.1
      (rolePatch dbA 81 NewRole.admin) rfl rfl,
   (C7_owner_role_immutable (some 1) ⟨10, 2, NewRole.admin⟩ dbA).2.2
      (rolePatch dbA 81 NewRole.admin) rfl (by decide)⟩

/-- **C5**: invite single-use — `joinByInvite` fails with "Invalid or
expired invite" when the token is unknown, already used, or expired
(`expiresAt < now`), fails with "Already a member of this workspace" when
the redeemer already belongs, and otherwise inserts a `member` WorkspaceMember
row and marks the invite `usedAt` in the same atomic mutation, after which
every later redemption of the same token (by anyone) fails with
"Invalid or expired invite". -/
theorem C5_invite_single_use (db : DB) (u now : Nat) (tok : String) :
    (db.invites.filter (fun i => i.token == tok) = [] →
      joinByInvite (some u) now tok db = .error "Invalid or expired invite") ∧
    (∀ inv, db.invites.filter (fun i => i.token == tok) = [inv] →
      (inv.usedAt.isSome ∨ inv.expiresAt < now) →
      joinByInvite (some u) now tok db = .error "Invalid or expired invite") ∧
    (∀ inv wm, db.invites.filter (fun i => i.token == tok) = [inv] →
      inv.usedAt = none → ¬ (inv.expiresAt < now) →
      memberLookup db inv.workspaceId u = .ok (some wm) →
      joinByInvite (some u) now tok db =
        .error "Already a member of this workspace") ∧
    (∀ inv, db.invites.filter (fun i => i.token == tok) = [inv] →
      inv.usedAt = none → ¬ (inv.expiresAt < now) →
      memberLookup db inv.workspaceId u = .ok none →
      joinByInvite (some u) now tok db =
        .ok (joinApply db inv u now, inv.workspaceId) ∧
      ({ id := db.nextId, workspaceId := inv.workspaceId, userId := u,
         role := Role.member, joinedAt := now } : WorkspaceMember) ∈
        (joinApply db inv u now).workspaceMembers ∧
      (joinApply db inv u now).invites.filter (fun i => i.token == tok) =
        [{ inv with usedAt := some now }] ∧
      (∀ u' now', joinByInvite (some u') now' tok (joinApply db inv u now) =
        .error "Invalid or expired invite")) := by
  refine ⟨?_, ?_, ?_, ?_⟩
  · intro hf
    simp [joinByInvite, uniqueMatch, hf]
  · intro inv hf hbad
    simp [joinByInvite, uniqueMatch, hf, hbad]
  · intro inv wm hf hused hexp hwm
    simp [joinByInvite, uniqueMatch, hf, hused, hexp, hwm]
  · intro inv hf hused hexp hwm
    have hfilter : (joinApply db inv u now).invites.filter
        (fun i => i.token == tok) = [{ inv with usedAt := some now }] := by
      have hpres : ∀ x : Invite,
          ((fun i : Invite => i.token == tok)
            (if x.id == inv.id then { x with usedAt := some now } else x)) =
          ((fun i : Invite => i.token == tok) x) := by
        intro x
        by_cases hx : (x.id == inv.id) = true <;> simp [hx]
      show (db.invites.map (fun i =>
        if i.id == inv.id then { i with usedAt := some now } else i)).filter
          (fun i => i.token == tok) = _
      rw [filter_map_pres _ _ _ hpres, hf]
      simp
    refine ⟨?_, ?_, hfilter, ?_⟩
    · simp [joinByInvite, uniqueMatch, hf, hused, hexp, hwm]
    · simp [joinApply]
    · intro u' now'
      simp [joinByInvite, uniqueMatch, hfilter]

/-- Witness for C5 on `dbA` (invite 50, token "tok1", expires at 10000):
unknown token fails; expired redemption fails; member 2 redeeming fails
with AlreadyMember; outsider 5 redeeming at t=500 succeeds, stores the
membership row, marks the invite used, and any second redemption fails. -/
theorem C5_invite_single_use_witness :
    (joinByInvite (some 5) 500 "nope" dbA = .error "Invalid or expired invite") ∧
    (joinByInvite (some 5) 20000 "tok1" dbA = .error "Invalid or expired invite") ∧
    (joinByInvite (some 2) 500 "tok1" dbA = .error "Already a member of this workspace") ∧
    (joinByInvite (some 5) 500 "tok1" dbA =
      .ok (joinApply dbA ⟨50, 10, "eve@x", "tok1", 1, 10000, none, 90⟩ 5 500, 10) ∧
     ({ id := 200, workspaceId := 10, userId := 5, role := Role.member,
        joinedAt := 500 } : WorkspaceMember) ∈
       (joinApply dbA ⟨50, 10, "eve@x", "tok1", 1, 10000, none, 90⟩ 5 500).workspaceMembers ∧
     (joinApply dbA ⟨50, 10, "eve@x", "tok1", 1, 10000, none, 90⟩ 5 500).invites.filter
        (fun i => i.token == "tok1") =
       [⟨50, 10, "eve@x", "tok1", 1, 10000, some 500, 90⟩] ∧
     (∀ u' now', joinByInvite (some u') now' "tok1"
        (joinApply dbA ⟨50, 10, "eve@x", "tok1", 1, 10000, none, 90⟩ 5 500) =
       .error "Invalid or expired invite")) :=
  ⟨(C5_invite_single_use dbA 5 500 "nope").1 rfl,
   (C5_invite_single_use dbA 5 20000 "tok1").2.1
     ⟨50, 10, "eve@x", "tok1", 1, 10000, none, 90⟩ rfl (Or.inr (by decide)),
   (C5_invite_single_use dbA 2 500 "tok1").2.2.1
     ⟨50, 10, "eve@x", "tok1", 1, 10000, none, 90⟩ ⟨81, 10, 2, .member, 55⟩
     rfl rfl (by decide) rfl,
   (C5_invite_single_use dbA 5 500 "tok1").2.2.2
     ⟨50, 10, "eve@x", "tok1", 1, 10000, none, 90⟩
     rfl rfl (by decide) rfl⟩

/-- **C4** (the code evaluated at the failing input): in `dbC4` user 1's
`createInvite` fixed-window quota (10/hour, per the configuration table in
`lib/rateLimit.ts`) is exhausted — the limiter itself would raise
RateLimited — yet `generateInvite` succeeds and stores the invite, because
`workspaces.generateInvite` (like `workspaces.create`) never consults the
rate limiter. -/
theorem C4_invite_bypasses_rate_limit :
    rlLimit "createInvite" 1 1000 dbC4.rl = .error "RateLimited" ∧
    okSat (generateInvite (some 1) 1000 "tok9" ⟨10, "x@y"⟩ dbC4)
      (fun r => r.1.invites.any (fun i => i.token == "tok9")) = true := by
  exact ⟨rfl, by decide⟩

/-- **C1 counterexample**: user 5 is not a member of workspace 10 and
message 40 belongs to workspace 10, yet user 5's `addReaction` on it
SUCCEEDS (the reaction row is stored) instead of raising
NotAMember/Unauthenticated — the mutation performs no membership check. -/
theorem C1_counterexample :
    memberLookup dbA 10 5 = .ok none ∧
    (findMessage dbA 40).any (fun m => m.workspaceId == 10) = true ∧
    okSat (addReaction (some 5) 1000 ⟨40, "+1"⟩ dbA)
      (fun db' => db'.reactions.any
        (fun r => r.messageId == 40 && r.userId == 5 && r.emoji == "+1")) =
      true := by
  exact ⟨rfl, by decide, by decide⟩

/-- **C1 (amended)**: for a user `u` with no membership row in workspace `w`:
the queries `messages.get`, `messages.list` (channel), `getThreadMessages`
and `directMessages.list` scoped to `w` return empty/null without throwing,
and the mutations `send`, `directMessages.create` and `generateInvite` raise
membership errors — with three exceptions.  (1) `workspaces.get` THROWS
"Not a member of this workspace" instead of returning empty.  (2) The DM
branch of `messages.list` checks participancy only, never workspace
membership: a non-member who is not a participant gets an empty page, but a
non-member who IS a DM participant (a reachable state, since DM
creation/`addParticipant` never check participants' workspace membership)
receives the full DM timeline.  (3) `addReaction` checks only
authentication and the rate limit, so a non-member's reaction toggle on a
message of `w` succeeds. -/
theorem C1_membership_gate (db : DB) (u w : Nat)
    (hmem : memberLookup db w u = .ok none) :
    (wsGet (some u) w db = .error "Not a member of this workspace") ∧
    (∀ mid m, findMessage db mid = some m → m.workspaceId = w →
      msgGet (some u) mid db = .ok none) ∧
    (∀ cid ch d popts, findChannel db cid = some ch → ch.workspaceId = w →
      listMessages (some u) ⟨some cid, d⟩ popts db = .ok emptyPage) ∧
    (∀ did dm popts, findDm db did = some dm → dm.workspaceId = w →
      u ∉ dm.participants →
      listMessages (some u) ⟨none, some did⟩ popts db = .ok emptyPage) ∧
    (∀ did dm popts, findDm db did = some dm → dm.workspaceId = w →
      u ∈ dm.participants →
      listMessages (some u) ⟨none, some did⟩ popts db =
        .ok (pageMap (enrichListed db) (paginate (dmTimeline db did) popts))) ∧
    (∀ pid pm popts, findMessage db pid = some pm → pm.workspaceId = w →
      getThreadMessages (some u) pid popts db = .ok emptyPage) ∧
    (dmList (some u) w db = .ok []) ∧
    (∀ args now getUrl rl1, args.workspaceId = w →
      rlLimit "sendMessage" u now db.rl = .ok rl1 →
      send (some u) now getUrl args db =
        .error "Not a member of this workspace") ∧
    (∀ ps now rl1, rlLimit "createDm" u now db.rl = .ok rl1 →
      dmCreate (some u) now ⟨w, ps⟩ db =
        .error "Not a member of this workspace") ∧
    (∀ tok em now, generateInvite (some u) now tok ⟨w, em⟩ db =
      .error "Insufficient permissions") ∧
    (∀ margs m now rl1, findMessage db margs.messageId = some m →
      m.workspaceId = w →
      rlLimit "addReaction" u now db.rl = .ok rl1 →
      db.reactions.filter
        (fun r => r.messageId == margs.messageId && r.userId == u) = [] →
      ∃ db', addReaction (some u) now margs db = .ok db' ∧
        db'.reactions = db.reactions ++
          [⟨db.nextId, margs.messageId, u, margs.emoji, now⟩]) := by
  refine ⟨?_, ?_, ?_, ?_, ?_, ?_, ?_, ?_, ?_, ?_, ?_⟩
  · simp [wsGet, hmem]
  · intro mid m hfind hw
    by_cases hd : m.deletedAt.isSome = true <;>
      simp [msgGet, hfind, hd, hw, hmem]
  · intro cid ch d popts hch hw
    simp [listMessages, hch, hw, hmem]
  · intro did dm popts hdm hw hp
    simp [listMessages, hdm, hp]
  · intro did dm popts hdm hw hp
    simp [listMessages, hdm, hp]
  · intro pid pm popts hfind hw
    simp [getThreadMessages, hfind, hw, hmem]
  · simp [dmList, hmem]
  · intro args now getUrl rl1 hw hrl
    simp [send, hrl, hw, hmem]
  · intro ps now rl1 hrl
    simp [dmCreate, hrl, hmem]
  · intro tok em now
    simp [generateInvite, hmem]
  · intro margs m now rl1 hfind hw hrl hfil
    refine ⟨{ db with
              rl := rl1,
              reactions := db.reactions ++
                [⟨db.nextId, margs.messageId, u, margs.emoji, now⟩],
              nextId := db.nextId + 1 }, ?_, rfl⟩
    simp [addReaction, hrl, uniqueMatch, hfil]

/-- Witness for C1 (amended): at `dbA` with outsider user 5 and workspace
10, each gated read degrades to empty, each gated mutation errors, and
`addReaction` succeeds; at `dbC1`, where user 5 has no membership row but
is a participant of DM 32, `messages.list` hands user 5 the full DM
timeline (message 45). -/
theorem C1_membership_gate_witness :
    (wsGet (some 5) 10 dbA = .error "Not a member of this workspace") ∧
    (msgGet (some 5) 40 dbA = .ok none) ∧
    (listMessages (some 5) ⟨some 20, none⟩ ⟨0, 10⟩ dbA = .ok emptyPage) ∧
    (listMessages (some 5) ⟨none, some 30⟩ ⟨0, 10⟩ dbA = .ok emptyPage) ∧
    (memberLookup dbC1 10 5 = .ok none) ∧
    (listMessages (some 5) ⟨none, some 32⟩ ⟨0, 10⟩ dbC1 =
      .ok (pageMap (enrichListed dbC1) (paginate (dmTimeline dbC1 32) ⟨0, 10⟩))) ∧
    ((pageMap (enrichListed dbC1)
        (paginate (dmTimeline dbC1 32) ⟨0, 10⟩)).page.map
      (fun x => x.msg.id) = [45]) ∧
    (getThreadMessages (some 5) 40 ⟨0, 10⟩ dbA = .ok emptyPage) ∧
    (dmList (some 5) 10 dbA = .ok []) ∧
    (send (some 5) 1000 (fun _ => none)
        ⟨10, some 20, none, "hi", none, none, none⟩ dbA =
      .error "Not a member of this workspace") ∧
    (dmCreate (some 5) 1000 ⟨10, [1]⟩ dbA =
      .error "Not a member of this workspace") ∧
    (generateInvite (some 5) 1000 "t" ⟨10, "a@b"⟩ dbA =
      .error "Insufficient permissions") ∧
    (∃ db', addReaction (some 5) 1000 ⟨40, "+1"⟩ dbA = .ok db' ∧
      db'.reactions = dbA.reactions ++ [⟨200, 40, 5, "+1", 1000⟩]) :=
  ⟨(C1_membership_gate dbA 5 10 rfl).1,
   (C1_membership_gate dbA 5 10 rfl).2.1 40 _ rfl rfl,
   (C1_membership_gate dbA 5 10 rfl).2.2.1 20 _ none ⟨0, 10⟩ rfl rfl,
   (C1_membership_gate dbA 5 10 rfl).2.2.2.1 30 _ ⟨0, 10⟩ rfl rfl (by decide),
   rfl,
   (C1_membership_gate dbC1 5 10 rfl).2.2.2.2.1 32 _ ⟨0, 10⟩ rfl rfl
     (by decide),
   by decide,
   (C1_membership_gate dbA 5 10 rfl).2.2.2.2.2.1 40 _ ⟨0, 10⟩ rfl rfl,
   (C1_membership_gate dbA 5 10 rfl).2.2.2.2.2.2.1,
   (C1_membership_gate dbA 5 10 rfl).2.2.2.2.2.2.2.1
     ⟨10, some 20, none, "hi", none, none, none⟩ 1000 (fun _ => none) _ rfl rfl,
   (C1_membership_gate dbA 5 10 rfl).2.2.2.2.2.2.2.2.1 [1] 1000 _ rfl,
   (C1_membership_gate dbA 5 10 rfl).2.2.2.2.2.2.2.2.2.1 "t" "a@b" 1000,
   (C1_membership_gate dbA 5 10 rfl).2.2.2.2.2.2.2.2.2.2
     ⟨40, "+1"⟩ _ 1000 _ rfl rfl rfl rfl⟩

/-- **C6**: soft-delete postcondition — after a successful
`remove(messageId)`, the message row still exists in storage with
`deletedAt` set (retrievable by direct id fetch, never physically removed),
and no page of `list` or `getThreadMessages` contains its id, and
`getThreadCount` of any parent does not count it. -/
theorem C6_soft_delete (db db' : DB) (u now mid : Nat)
    (hok : removeMessage (some u) now mid db = .ok db') :
    (∃ m, findMessage db mid = some m ∧
      findMessage db' mid = some { m with deletedAt := some now }) ∧
    (∀ auth args popts pg, listMessages auth args popts db' = .ok pg →
      ∀ x ∈ pg.page, x.msg.id ≠ mid) ∧
    (∀ auth pid popts pg, getThreadMessages auth pid popts db' = .ok pg →
      ∀ x ∈ pg.page, x.msg.id ≠ mid) ∧
    (∀ pid, getThreadCount db' pid =
      ((threadReplies db' pid).filter (fun x => x.id != mid)).length) := by
  obtain ⟨⟨m, hfind⟩, hdb⟩ := removeMessage_ok_shape u now mid db db' hok
  subst hdb
  have hfind' := hfind
  unfold findMessage at hfind'
  have hKD : ∀ x ∈ (removePatch db mid now).messages, x.id = mid →
      x.deletedAt = some now := by
    intro x hx hid
    unfold removePatch at hx
    simp only [List.mem_map] at hx
    obtain ⟨y, hy, hxy⟩ := hx
    by_cases hyid : (y.id == mid) = true
    · rw [← hxy]; simp [hyid]
    · exfalso
      rw [← hxy] at hid
      rw [if_neg hyid] at hid
      exact hyid (by simpa using hid)
  refine ⟨?_, ?_, ?_, ?_⟩
  · refine ⟨m, hfind, ?_⟩
    have hid : (m.id == mid) = true := by
      have := List.find?_some hfind'
      simpa using this
    unfold removePatch findMessage
    rw [find?_map_pres _ _ _ ?hp]
    case hp =>
      intro x
      by_cases hx : (x.id == mid) = true <;> simp [hx]
    rw [hfind']
    have hid' : m.id = mid := by simpa using hid
    simp [hid']
  · intro auth args popts pg hlok x hx hxid
    rcases listMessages_ok_shape auth args popts _ pg hlok with
      hpage | ⟨cid, _, hpage⟩ | ⟨did, _, _, hpage⟩
    · rw [hpage] at hx; exact absurd hx (List.not_mem_nil x)
    · rw [hpage] at hx
      obtain ⟨y, hy, hxy⟩ := List.mem_map.mp hx
      have hytl : y ∈ channelTimeline (removePatch db mid now) cid :=
        List.mem_of_mem_drop (List.mem_of_mem_take hy)
      obtain ⟨hym, _, hydel, _⟩ := mem_channelTimeline hytl
      have : y.id = mid := by rw [← hxy] at hxid; exact hxid
      rw [hKD y hym this] at hydel
      exact Option.noConfusion hydel
    · rw [hpage] at hx
      obtain ⟨y, hy, hxy⟩ := List.mem_map.mp hx
      have hytl : y ∈ dmTimeline (removePatch db mid now) did :=
        List.mem_of_mem_drop (List.mem_of_mem_take hy)
      obtain ⟨hym, _, hydel, _⟩ := mem_dmTimeline hytl
      have : y.id = mid := by rw [← hxy] at hxid; exact hxid
      rw [hKD y hym this] at hydel
      exact Option.noConfusion hydel
  · intro auth pid popts pg hlok x hx hxid
    rcases getThreadMessages_ok_shape auth pid popts _ pg hlok with hpage | hpage
    · rw [hpage] at hx; exact absurd hx (List.not_mem_nil x)
    · rw [hpage] at hx
      obtain ⟨y, hy, hxy⟩ := List.mem_map.mp hx
      have hytl : y ∈ threadReplies (removePatch db mid now) pid :=
        List.mem_of_mem_drop (List.mem_of_mem_take hy)
      obtain ⟨hym, _, hydel⟩ := mem_threadReplies hytl
      have : y.id = mid := by rw [← hxy] at hxid; exact hxid
      rw [hKD y hym this] at hydel
      exact Option.noConfusion hydel
  · intro pid
    unfold getThreadCount
    rw [List.filter_eq_self.mpr]
    intro y hy
    obtain ⟨hym, _, hydel⟩ := mem_threadReplies hy
    simp only [bne_iff_ne, ne_eq]
    intro hyid
    rw [hKD y hym hyid] at hydel
    exact Option.noConfusion hydel

/-- Witness for C6: user 2 removes their reply 41 in `dbA`; the row remains
with `deletedAt = 400`, and every read path excludes id 41. -/
theorem C6_soft_delete_witness :
    (∃ m, findMessage dbA 41 = some m ∧
      findMessage (removePatch dbA 41 400) 41 =
        some { m with deletedAt := some 400 }) ∧
    (∀ auth args popts pg,
      listMessages auth args popts (removePatch dbA 41 400) = .ok pg →
      ∀ x ∈ pg.page, x.msg.id ≠ 41) ∧
    (∀ auth pid popts pg,
      getThreadMessages auth pid popts (removePatch dbA 41 400) = .ok pg →
      ∀ x ∈ pg.page, x.msg.id ≠ 41) ∧
    (∀ pid, getThreadCount (removePatch dbA 41 400) pid =
      ((threadReplies (removePatch dbA 41 400) pid).filter
        (fun x => x.id != 41)).length) :=
  C6_soft_delete dbA (removePatch dbA 41 400) 2 400 41 rfl

/-- **C9**: the reaction toggle is a state involution — two successive
`addReaction` calls by the same user with the same message/emoji (no
interleaving) restore the reacted/unreacted state of every
`(message, user, emoji)` triple and every per-(message, emoji) aggregate
count; a single call inserts the row when absent and deletes it when
present, preserving the at-most-one-row-per-triple invariant. -/
theorem C9_reaction_toggle_involution (db db1 db2 : DB) (u t1 t2 : Nat)
    (args : ReactionArgs)
    (hnd : (db.reactions.map (fun r => r.id)).Nodup)
    (hfresh : ∀ r ∈ db.reactions, r.id < db.nextId)
    (h1 : addReaction (some u) t1 args db = .ok db1)
    (h2 : addReaction (some u) t2 args db1 = .ok db2) :
    (∀ m u2 e, hasReaction db2 m u2 e = hasReaction db m u2 e) ∧
    (∀ m e, reactionCount db2 m e = reactionCount db m e) ∧
    ((db.reactions.filter (fun x =>
        x.messageId == args.messageId && x.userId == u)).filter
          (fun x => x.emoji == args.emoji) = [] →
      db1.reactions = db.reactions ++
        [⟨db.nextId, args.messageId, u, args.emoji, t1⟩]) ∧
    (∀ r, (db.reactions.filter (fun x =>
        x.messageId == args.messageId && x.userId == u)).filter
          (fun x => x.emoji == args.emoji) = [r] →
      db1.reactions = db.reactions.filter (fun x => x.id != r.id)) ∧
    ((∀ m u2 e, (db.reactions.filter (fun x =>
        x.messageId == m && x.userId == u2 && x.emoji == e)).length ≤ 1) →
      (∀ m u2 e, (db1.reactions.filter (fun x =>
        x.messageId == m && x.userId == u2 && x.emoji == e)).length ≤ 1)) := by
  obtain ⟨rl1, hrl1, hcase1⟩ := addReaction_ok_shape u t1 args db db1 h1
  rcases hcase1 with ⟨r, hA, hdb1⟩ | ⟨hz, hdb1⟩
  · -- first toggle DELETED the existing row r
    have hdb1r : db1.reactions = db.reactions.filter (fun x => x.id != r.id) := by
      rw [hdb1]
    have hdb1n : db1.nextId = db.nextId := by rw [hdb1]
    have h0 : r ∈ (db.reactions.filter (fun x =>
        x.messageId == args.messageId && x.userId == u)).filter
          (fun x => x.emoji == args.emoji) := by
      rw [hA]; exact List.mem_singleton_self r
    have h0' := List.mem_filter.mp h0
    have h0'' := List.mem_filter.mp h0'.1
    have hrmem : r ∈ db.reactions := h0''.1
    have hrm : r.messageId = args.messageId := by
      have := h0''.2; simp only [Bool.and_eq_true, beq_iff_eq] at this
      exact this.1
    have hru : r.userId = u := by
      have := h0''.2; simp only [Bool.and_eq_true, beq_iff_eq] at this
      exact this.2
    have hre : r.emoji = args.emoji := by
      have := h0'.2; simp only [beq_iff_eq] at this
      exact this
    have hperm : db.reactions.Perm (r :: db1.reactions) := by
      rw [hdb1r]; exact reactions_perm_delete r db.reactions hrmem hnd
    have hA' : db.reactions.filter (fun x =>
        (x.messageId == args.messageId && x.userId == u) &&
          x.emoji == args.emoji) = [r] := by
      rw [← filter_filter2]; exact hA
    have hz1 : (db1.reactions.filter (fun x =>
        x.messageId == args.messageId && x.userId == u)).filter
          (fun x => x.emoji == args.emoji) = [] := by
      rw [filter_filter2, hdb1r, filter_filter2]
      rw [List.filter_eq_nil_iff]
      intro x hx hcontra
      simp only [Bool.and_eq_true] at hcontra
      have hx2 : x ∈ db.reactions.filter (fun y =>
          (y.messageId == args.messageId && y.userId == u) &&
            y.emoji == args.emoji) :=
        List.mem_filter.mpr ⟨hx, by
          simp only [Bool.and_eq_true]
          exact ⟨hcontra.2.1, hcontra.2.2⟩⟩
      rw [hA'] at hx2
      have hxr : x = r := List.mem_singleton.mp hx2
      have := hcontra.1
      rw [hxr] at this
      simp at this
    obtain ⟨rl2, hrl2, hcase2⟩ := addReaction_ok_shape u t2 args db1 db2 h2
    rcases hcase2 with ⟨r', hA2, hdb2⟩ | ⟨hz2, hdb2⟩
    · rw [hz1] at hA2; exact List.noConfusion hA2
    · have hdb2r : db2.reactions = db1.reactions ++
          [⟨db1.nextId, args.messageId, u, args.emoji, t2⟩] := by
        rw [hdb2]
      refine ⟨?_, ?_, ?_, ?_, ?_⟩
      · intro m u2 e
        unfold hasReaction
        apply Bool.eq_iff_iff.mpr
        rw [List.any_eq_true, List.any_eq_true]
        constructor
        · rintro ⟨x, hx, hpx⟩
          rw [hdb2r] at hx
          rcases List.mem_append.mp hx with hx1 | hx2
          · exact ⟨x, hperm.mem_iff.mpr (List.mem_cons_of_mem r hx1), hpx⟩
          · have hx2' := List.mem_singleton.mp hx2
            rw [hx2'] at hpx
            refine ⟨r, hrmem, ?_⟩
            rw [hrm, hru, hre]
            simpa using hpx
        · rintro ⟨x, hx, hpx⟩
          rcases List.mem_cons.mp (hperm.mem_iff.mp hx) with hx1 | hx2
          · refine ⟨⟨db1.nextId, args.messageId, u, args.emoji, t2⟩, ?_, ?_⟩
            · rw [hdb2r]
              exact List.mem_append_right _ (List.mem_singleton_self _)
            · rw [hx1] at hpx
              rw [hrm, hru, hre] at hpx
              simpa using hpx
          · exact ⟨x, by rw [hdb2r]; exact List.mem_append_left _ hx2, hpx⟩
      · intro m e
        unfold reactionCount
        have hp2 : db2.reactions.Perm
            ((⟨db1.nextId, args.messageId, u, args.emoji, t2⟩ : ReactionRow)
              :: db1.reactions) := by
          rw [hdb2r]; exact List.perm_append_singleton _ _
        rw [(hp2.filter _).length_eq, (hperm.filter _).length_eq]
        have hc2 : ((⟨db1.nextId, args.messageId, u, args.emoji, t2⟩ :
              ReactionRow).messageId == m &&
            (⟨db1.nextId, args.messageId, u, args.emoji, t2⟩ :
              ReactionRow).emoji == e) =
            (r.messageId == m && r.emoji == e) := by
          simp [hrm, hre]
        simp only [List.filter_cons, hc2]
        cases hc : ((r.messageId == m) && (r.emoji == e)) <;> simp [hc]
      · intro hz0
        rw [hz0] at hA
        exact List.noConfusion hA
      · intro r0 hA0
        rw [hA] at hA0
        have : r = r0 := (List.cons.inj hA0).1
        rw [hdb1r, this]
      · intro hao m u2 e
        rw [hdb1r]
        calc ((db.reactions.filter (fun x => x.id != r.id)).filter
                (fun x => x.messageId == m && x.userId == u2 &&
                  x.emoji == e)).length
            ≤ (db.reactions.filter (fun x => x.messageId == m &&
                x.userId == u2 && x.emoji == e)).length :=
              ((List.filter_sublist db.reactions).filter _).length_le
          _ ≤ 1 := hao m u2 e
  · -- first toggle INSERTED a fresh row
    have hdb1r : db1.reactions = db.reactions ++
        [⟨db.nextId, args.messageId, u, args.emoji, t1⟩] := by rw [hdb1]
    have hdb1n : db1.nextId = db.nextId + 1 := by rw [hdb1]
    have hz' : db.reactions.filter (fun x =>
        (x.messageId == args.messageId && x.userId == u) &&
          x.emoji == args.emoji) = [] := by
      rw [← filter_filter2]; exact hz
    have hone : (db1.reactions.filter (fun x =>
        x.messageId == args.messageId && x.userId == u)).filter
          (fun x => x.emoji == args.emoji) =
        [⟨db.nextId, args.messageId, u, args.emoji, t1⟩] := by
      rw [filter_filter2, hdb1r, List.filter_append, hz']
      simp
    obtain ⟨rl2, hrl2, hcase2⟩ := addReaction_ok_shape u t2 args db1 db2 h2
    rcases hcase2 with ⟨r', hA2, hdb2⟩ | ⟨hz2, hdb2⟩
    · have hr' : (⟨db.nextId, args.messageId, u, args.emoji, t1⟩ :
          ReactionRow) = r' := by
        rw [hone] at hA2
        exact (List.cons.inj hA2).1
      have hdb2r : db2.reactions = db1.reactions.filter
          (fun x => x.id != r'.id) := by rw [hdb2]
      have hsame : db2.reactions = db.reactions := by
        rw [hdb2r, hdb1r, List.filter_append, ← hr']
        have hself : db.reactions.filter (fun x =>
            x.id != (⟨db.nextId, args.messageId, u, args.emoji, t1⟩ :
              ReactionRow).id) = db.reactions := by
          apply List.filter_eq_self.mpr
          intro y hy
          simp only [bne_iff_ne, ne_eq]
          intro h
          have := hfresh y hy
          rw [h] at this
          simp at this
        rw [hself]
        simp
      refine ⟨?_, ?_, ?_, ?_, ?_⟩
      · intro m u2 e
        unfold hasReaction
        rw [hsame]
      · intro m e
        unfold reactionCount
        rw [hsame]
      · intro _
        exact hdb1r
      · intro r0 hA0
        rw [hz] at hA0
        exact List.noConfusion hA0
      · intro hao m u2 e
        rw [hdb1r, List.filter_append]
        by_cases htp : ((fun x : ReactionRow =>
            x.messageId == m && x.userId == u2 && x.emoji == e)
            (⟨db.nextId, args.messageId, u, args.emoji, t1⟩ :
              ReactionRow)) = true
        · have hdecode := htp
          simp only [Bool.and_eq_true, beq_iff_eq] at hdecode
          obtain ⟨⟨hm, hu2⟩, he⟩ := hdecode
          subst hm; subst hu2; subst he
          rw [hz']
          simp
        · rw [List.filter_cons, if_neg (by simpa using htp)]
          simpa using hao m u2 e
    · rw [hone] at hz2
      exact List.noConfusion hz2

/-- Witness for C9: user 2 toggles "+1" on message 40 of `dbA` twice
(t=500 then t=600); the reacted-state and all counts return to the
original state. -/
theorem C9_reaction_toggle_involution_witness :
    (∀ m u2 e, hasReaction { dbA with
        rl := [⟨"addReaction", 2, 500, 2⟩], reactions := [],
        nextId := 201 } m u2 e = hasReaction dbA m u2 e) ∧
    (∀ m e, reactionCount { dbA with
        rl := [⟨"addReaction", 2, 500, 2⟩], reactions := [],
        nextId := 201 } m e = reactionCount dbA m e) ∧
    ((dbA.reactions.filter (fun x =>
        x.messageId == 40 && x.userId == 2)).filter
          (fun x => x.emoji == "+1") = [] →
      ({ dbA with
          rl := [⟨"addReaction", 2, 500, 1⟩],
          reactions := [⟨200, 40, 2, "+1", 500⟩],
          nextId := 201 } : DB).reactions =
        dbA.reactions ++ [⟨200, 40, 2, "+1", 500⟩]) ∧
    (∀ r, (dbA.reactions.filter (fun x =>
        x.messageId == 40 && x.userId == 2)).filter
          (fun x => x.emoji == "+1") = [r] →
      ({ dbA with
          rl := [⟨"addReaction", 2, 500, 1⟩],
          reactions := [⟨200, 40, 2, "+1", 500⟩],
          nextId := 201 } : DB).reactions =
        dbA.reactions.filter (fun x => x.id != r.id)) ∧
    ((∀ m u2 e, (dbA.reactions.filter (fun x =>
        x.messageId == m && x.userId == u2 && x.emoji == e)).length ≤ 1) →
      (∀ m u2 e, (({ dbA with
          rl := [⟨"addReaction", 2, 500, 1⟩],
          reactions := [⟨200, 40, 2, "+1", 500⟩],
          nextId := 201 } : DB).reactions.filter (fun x =>
        x.messageId == m && x.userId == u2 && x.emoji == e)).length ≤ 1)) :=
  C9_reaction_toggle_involution dbA
    { dbA with
        rl := [⟨"addReaction", 2, 500, 1⟩],
        reactions := [⟨200, 40, 2, "+1", 500⟩], nextId := 201 }
    { dbA with
        rl := [⟨"addReaction", 2, 500, 2⟩], reactions := [], nextId := 201 }
    2 500 600 ⟨40, "+1"⟩ (by decide) (by decide) rfl rfl

/-- **C8**: pagination ordering — when messages were inserted at strictly
increasing timestamps, every `list` page is strictly decreasing in
`createdAt` and contains no thread replies (and no deleted messages), with
strict decrease also across successive pages; `getThreadMessages` pages are
strictly increasing in `createdAt`, also across successive pages. -/
theorem C8_pagination_ordering (db : DB)
    (hmono : db.messages.Pairwise (fun a b => a.createdAt < b.createdAt)) :
    (∀ auth args popts pg, listMessages auth args popts db = .ok pg →
      pg.page.Pairwise (fun a b => b.msg.createdAt < a.msg.createdAt) ∧
      ∀ x ∈ pg.page, x.msg.parentMessageId = none ∧ x.msg.deletedAt = none) ∧
    (∀ auth args c n k pg1 pg2,
      listMessages auth args ⟨c, n⟩ db = .ok pg1 →
      listMessages auth args ⟨c + n, k⟩ db = .ok pg2 →
      ∀ x ∈ pg1.page, ∀ y ∈ pg2.page, y.msg.createdAt < x.msg.createdAt) ∧
    (∀ auth pid popts pg, getThreadMessages auth pid popts db = .ok pg →
      pg.page.Pairwise (fun a b => a.msg.createdAt < b.msg.createdAt)) ∧
    (∀ auth pid c n k pg1 pg2,
      getThreadMessages auth pid ⟨c, n⟩ db = .ok pg1 →
      getThreadMessages auth pid ⟨c + n, k⟩ db = .ok pg2 →
      ∀ x ∈ pg1.page, ∀ y ∈ pg2.page, x.msg.createdAt < y.msg.createdAt) := by
  refine ⟨?_, ?_, ?_, ?_⟩
  · intro auth args popts pg hok
    rcases listMessages_ok_shape auth args popts db pg hok with
      hpage | ⟨cid, _, hpage⟩ | ⟨did, _, _, hpage⟩
    · rw [hpage]
      exact ⟨List.Pairwise.nil, by intro x hx; cases hx⟩
    · rw [hpage]
      constructor
      · rw [List.pairwise_map]
        exact pairwise_slice _ _ (channelTimeline_pairwise db cid hmono) _ _
      · intro x hx
        obtain ⟨y, hy, hxy⟩ := List.mem_map.mp hx
        have hytl : y ∈ channelTimeline db cid :=
          List.mem_of_mem_drop (List.mem_of_mem_take hy)
        obtain ⟨-, -, hdel, hpar⟩ := mem_channelTimeline hytl
        rw [← hxy]
        exact ⟨hpar, hdel⟩
    · rw [hpage]
      constructor
      · rw [List.pairwise_map]
        exact pairwise_slice _ _ (dmTimeline_pairwise db did hmono) _ _
      · intro x hx
        obtain ⟨y, hy, hxy⟩ := List.mem_map.mp hx
        have hytl : y ∈ dmTimeline db did :=
          List.mem_of_mem_drop (List.mem_of_mem_take hy)
        obtain ⟨-, -, hdel, hpar⟩ := mem_dmTimeline hytl
        rw [← hxy]
        exact ⟨hpar, hdel⟩
  · intro auth args c n k pg1 pg2 hok1 hok2 x hx y hy
    rcases listMessages_ok_shape auth args ⟨c, n⟩ db pg1 hok1 with
      hpage1 | ⟨cid1, hc1, hpage1⟩ | ⟨did1, hc1, hd1, hpage1⟩
    · rw [hpage1] at hx; cases hx
    · rcases listMessages_ok_shape auth args ⟨c + n, k⟩ db pg2 hok2 with
        hpage2 | ⟨cid2, hc2, hpage2⟩ | ⟨did2, hc2, hd2, hpage2⟩
      · rw [hpage2] at hy; cases hy
      · have hcid : cid1 = cid2 := by
          rw [hc1] at hc2; exact Option.some.inj hc2
        subst hcid
        rw [hpage1] at hx
        rw [hpage2] at hy
        obtain ⟨a, ha, hax⟩ := List.mem_map.mp hx
        obtain ⟨b, hb, hby⟩ := List.mem_map.mp hy
        have := pairwise_cross_slices _ _
          (channelTimeline_pairwise db cid1 hmono) c n k a ha b hb
        rw [← hax, ← hby]
        exact this
      · rw [hc1] at hc2; exact Option.noConfusion hc2
    · rcases listMessages_ok_shape auth args ⟨c + n, k⟩ db pg2 hok2 with
        hpage2 | ⟨cid2, hc2, hpage2⟩ | ⟨did2, hc2, hd2, hpage2⟩
      · rw [hpage2] at hy; cases hy
      · rw [hc1] at hc2; exact Option.noConfusion hc2
      · have hdid : did1 = did2 := by
          rw [hd1] at hd2; exact Option.some.inj hd2
        subst hdid
        rw [hpage1] at hx
        rw [hpage2] at hy
        obtain ⟨a, ha, hax⟩ := List.mem_map.mp hx
        obtain ⟨b, hb, hby⟩ := List.mem_map.mp hy
        have := pairwise_cross_slices _ _
          (dmTimeline_pairwise db did1 hmono) c n k a ha b hb
        rw [← hax, ← hby]
        exact this
  · intro auth pid popts pg hok
    rcases getThreadMessages_ok_shape auth pid popts db pg hok with
      hpage | hpage
    · rw [hpage]; exact List.Pairwise.nil
    · rw [hpage]
      rw [List.pairwise_map]
      exact pairwise_slice _ _ (threadReplies_pairwise db pid hmono) _ _
  · intro auth pid c n k pg1 pg2 hok1 hok2 x hx y hy
    rcases getThreadMessages_ok_shape auth pid ⟨c, n⟩ db pg1 hok1 with
      hpage1 | hpage1
    · rw [hpage1] at hx; cases hx
    · rcases getThreadMessages_ok_shape auth pid ⟨c + n, k⟩ db pg2 hok2 with
        hpage2 | hpage2
      · rw [hpage2] at hy; cases hy
      · rw [hpage1] at hx
        rw [hpage2] at hy
        obtain ⟨a, ha, hax⟩ := List.mem_map.mp hx
        obtain ⟨b, hb, hby⟩ := List.mem_map.mp hy
        have := pairwise_cross_slices _ _
          (threadReplies_pairwise db pid hmono) c n k a ha b hb
        rw [← hax, ← hby]
        exact this

/-- Witness for C8 at `dbA` (message timestamps 100 < 200 < 300). -/
theorem C8_pagination_ordering_witness :
    (∀ auth args popts pg, listMessages auth args popts dbA = .ok pg →
      pg.page.Pairwise (fun a b => b.msg.createdAt < a.msg.createdAt) ∧
      ∀ x ∈ pg.page, x.msg.parentMessageId = none ∧ x.msg.deletedAt = none) ∧
    (∀ auth args c n k pg1 pg2,
      listMessages auth args ⟨c, n⟩ dbA = .ok pg1 →
      listMessages auth args ⟨c + n, k⟩ dbA = .ok pg2 →
      ∀ x ∈ pg1.page, ∀ y ∈ pg2.page, y.msg.createdAt < x.msg.createdAt) ∧
    (∀ auth pid popts pg, getThreadMessages auth pid popts dbA = .ok pg →
      pg.page.Pairwise (fun a b => a.msg.createdAt < b.msg.createdAt)) ∧
    (∀ auth pid c n k pg1 pg2,
      getThreadMessages auth pid ⟨c, n⟩ dbA = .ok pg1 →
      getThreadMessages auth pid ⟨c + n, k⟩ dbA = .ok pg2 →
      ∀ x ∈ pg1.page, ∀ y ∈ pg2.page, x.msg.createdAt < y.msg.createdAt) :=
  C8_pagination_ordering dbA (by decide)

/-- **C3 counterexample**: `addParticipant` can produce two DM records with
identical participant sets — in `dbC3` (DM 100 = {1,2,3}, DM 101 = {1,2},
both in workspace 10), participant 1 adding user 3 to DM 101 succeeds and
leaves two distinct DM records of workspace 10 with equal participant
lists. -/
theorem C3_counterexample :
    okSat (dmAddParticipant (some 1) ⟨101, 3⟩ dbC3)
      (fun r => r.1.directMessages.any (fun d1 =>
        r.1.directMessages.any (fun d2 =>
          !(d1.id == d2.id) && d1.workspaceId == d2.workspaceId &&
          d1.participants == d2.participants))) = true := by
  decide

/-- **C3 (amended)**: DM `create` is idempotent per (order-independent,
deduplicated) participant set — after one successful create, a second
create by the same user with any participant list denoting the same set
returns the SAME DM id and inserts no record (only the rate-limiter state
advances); `addParticipant`, by contrast, re-checks nothing and can
duplicate a participant set (see the counterexample). -/
theorem C3_dm_create_idempotent (db db1 : DB) (u t1 t2 w i : Nat)
    (ps1 ps2 : List Nat) (rl2 : List RLEntry)
    (h1 : dmCreate (some u) t1 ⟨w, ps1⟩ db = .ok (db1, i))
    (hm : ∀ x, x ∈ u :: ps1 ↔ x ∈ u :: ps2)
    (hrl2 : rlLimit "createDm" u t2 db1.rl = .ok rl2) :
    dmCreate (some u) t2 ⟨w, ps2⟩ db1 = .ok ({ db1 with rl := rl2 }, i) := by
  have hmem12 : ∀ a, a ∈ dedupFirst (u :: ps1) ↔ a ∈ dedupFirst (u :: ps2) := by
    intro a
    rw [dedupFirst_mem, dedupFirst_mem]
    exact hm a
  have hlen12 : (dedupFirst (u :: ps1)).length =
      (dedupFirst (u :: ps2)).length :=
    nodup_length_eq _ _ (dedupFirst_nodup _) (dedupFirst_nodup _) hmem12
  have hfun : matchDm (dedupFirst (u :: ps1)) =
      matchDm (dedupFirst (u :: ps2)) :=
    funext (matchDm_congr _ _ hlen12 hmem12)
  simp only [dmCreate] at h1
  cases hrl1 : rlLimit "createDm" u t1 db.rl with
  | error e => simp only [hrl1] at h1; exact Except.noConfusion h1
  | ok rl1 =>
    simp only [hrl1] at h1
    cases hwm : memberLookup db w u with
    | error e => simp only [hwm] at h1; exact Except.noConfusion h1
    | ok wmo =>
      simp only [hwm] at h1
      cases wmo with
      | none => simp at h1
      | some wm =>
        cases hscan : (db.directMessages.filter
            (fun d => d.workspaceId == w)).find?
              (matchDm (dedupFirst (u :: ps1))) with
        | some dm0 =>
          simp only [hscan, Except.ok.injEq, Prod.mk.injEq] at h1
          obtain ⟨hdb1, hi⟩ := h1
          have hwm' : memberLookup db1 w u = .ok (some wm) := by
            rw [← hdb1]; exact hwm
          have hscan' : (db1.directMessages.filter
              (fun d => d.workspaceId == w)).find?
                (matchDm (dedupFirst (u :: ps2))) = some dm0 := by
            rw [← hfun, ← hdb1]
            exact hscan
          simp only [dmCreate, hrl2, hwm', hscan']
          rw [hi]
        | none =>
          simp only [hscan, Except.ok.injEq, Prod.mk.injEq] at h1
          obtain ⟨hdb1, hi⟩ := h1
          have hwm' : memberLookup db1 w u = .ok (some wm) := by
            rw [← hdb1]; exact hwm
          have hfilter1 : db1.directMessages.filter
              (fun d => d.workspaceId == w) =
              db.directMessages.filter (fun d => d.workspaceId == w) ++
                [⟨db.nextId, w, dedupFirst (u :: ps1), t1⟩] := by
            rw [← hdb1]
            show (db.directMessages ++
                [(⟨db.nextId, w, dedupFirst (u :: ps1), t1⟩ :
                  DirectMessage)]).filter
                  (fun d => d.workspaceId == w) =
              db.directMessages.filter (fun d => d.workspaceId == w) ++
                [⟨db.nextId, w, dedupFirst (u :: ps1), t1⟩]
            rw [List.filter_append]
            simp
          have hnew : matchDm (dedupFirst (u :: ps2))
              (⟨db.nextId, w, dedupFirst (u :: ps1), t1⟩ :
                DirectMessage) = true := by
            unfold matchDm
            simp only [Bool.and_eq_true, beq_iff_eq, List.all_eq_true]
            refine ⟨hlen12, ?_⟩
            intro a ha
            have ha1 : a ∈ dedupFirst (u :: ps1) := (hmem12 a).mpr ha
            simpa using ha1
          have hscan2 : (db1.directMessages.filter
              (fun d => d.workspaceId == w)).find?
                (matchDm (dedupFirst (u :: ps2))) =
              some ⟨db.nextId, w, dedupFirst (u :: ps1), t1⟩ := by
            rw [hfilter1, find?_append_none _ _ _ (by rw [← hfun]; exact hscan)]
            simp [List.find?_cons, hnew]
          simp only [dmCreate, hrl2, hwm', hscan2]
          rw [← hi]

/-- Witness for C3 (amended): in `dbA` (which already holds DM 30 = {1,2}),
user 1 creating a DM with [2] returns id 30, and creating again with the
reversed list [2,1] returns 30 again without inserting. -/
theorem C3_dm_create_idempotent_witness :
    dmCreate (some 1) 600 ⟨10, [2, 1]⟩
      ({ dbA with rl := [⟨"createDm", 1, 500, 1⟩] }) =
    .ok (({ dbA with rl := [⟨"createDm", 1, 500, 2⟩] } : DB), 30) :=
  C3_dm_create_idempotent dbA { dbA with rl := [⟨"createDm", 1, 500, 1⟩] }
    1 500 600 10 30 [2] [2, 1] [⟨"createDm", 1, 500, 2⟩]
    rfl (by intro x; simp [List.mem_cons]; tauto) rfl

end MakerTalk
